import Mathlib

/-!
Verification of the seqr variant search / discovery sheet core.

The definitions below are shallow embeddings of the Python source:
* genotype-based inheritance classification and compound-het candidacy
  (seqr/views/apis/staff_api.py, `_generate_rows`),
* compound-het grouping with gene-id tie-breaking (same function),
* the search-result descriptor cache (seqr/views/apis/variant_search_api.py,
  `query_variants_handler`), the permission gate, the saved-variant merge,
* `reset_cached_search_results` (seqr/views/utils/variant_utils.py),
* the discovery-sheet row/error aggregation skeleton.

Sample guids, gene ids and family guids are `String`; variants are
identified by `Nat` ids; Python dicts keyed by strings are association
lists kept in insertion order; Python sets are duplicate-free lists.
-/

namespace Seqr

/-! ### Genotype classification (staff_api.py, lines 415-465)

For each saved variant the code partitions the samples appearing in the
genotype map into four buckets by affected status and `numAlt`, using an
`if/elif` chain over `numAlt == 2` / `numAlt == 1` and membership in the
affected / unaffected sample-guid sets. -/

structure Buckets where
  affectedHomAlt : List String
  affectedHet : List String
  unaffectedHomAlt : List String
  unaffectedHet : List String
deriving Repr, DecidableEq

def mkBuckets (affected unaffected : List String) :
    List (String × Nat) → Buckets
  | [] => ⟨[], [], [], []⟩
  | (guid, numAlt) :: rest =>
    let b := mkBuckets affected unaffected rest
    if numAlt == 2 && affected.contains guid then
      { b with affectedHomAlt := guid :: b.affectedHomAlt }
    else if numAlt == 1 && affected.contains guid then
      { b with affectedHet := guid :: b.affectedHet }
    else if numAlt == 2 && unaffected.contains guid then
      { b with unaffectedHomAlt := guid :: b.unaffectedHomAlt }
    else if numAlt == 1 && unaffected.contains guid then
      { b with unaffectedHet := guid :: b.unaffectedHet }
    else b

/-- A family's sample guids are split into disjoint affected / unaffected
sets: the code derives them from the mutually exclusive values of
`sample.individual.affected`. -/
def DisjointStatus (affected unaffected : List String) : Prop :=
  ∀ s, s ∈ unaffected → s ∉ affected

/-- Inheritance-model derivation for one variant (staff_api.py 447-458).
The first branch adds `X-linked` or `AR-homozygote`, the second adds
`de novo` or `AD`; `is_x_linked` is only computed when the genotype map
is non-empty ("X" in the chromosome label is a one-character substring
check, i.e. the label, modelled as its character sequence, contains the
character X). -/
def inheritanceModels (chrom : List Char) (affected unaffected : List String)
    (genotypes : List (String × Nat)) : List String :=
  let b := mkBuckets affected unaffected genotypes
  let isXLinked := !genotypes.isEmpty && chrom.contains ('X')
  (if b.unaffectedHomAlt.isEmpty && !b.affectedHomAlt.isEmpty then
    (if isXLinked then ["X-linked"] else ["AR-homozygote"])
   else []) ++
  (if b.unaffectedHomAlt.isEmpty && b.unaffectedHet.isEmpty && !b.affectedHet.isEmpty then
    (if !unaffected.isEmpty then ["de novo"] else ["AD"])
   else [])

/-- Compound-het candidacy gate for one variant (staff_api.py 460-461). -/
def isCompHetCandidate (affected unaffected : List String)
    (genotypes : List (String × Nat)) : Bool :=
  let b := mkBuckets affected unaffected genotypes
  b.unaffectedHomAlt.isEmpty &&
    (decide (unaffected.length < 2) || !b.unaffectedHet.isEmpty) &&
    !b.affectedHet.isEmpty && b.affectedHomAlt.isEmpty

/-! ### Compound-het grouping (staff_api.py, lines 462-500) -/

/-- Python set equality of two variant collections. -/
def setEq (a b : List Nat) : Bool :=
  a.all (fun x => b.contains x) && b.all (fun x => a.contains x)

/-- Lookup of `saved_variants_to_json[v]['inheritance']`. -/
def lookupInh (inh : List (Nat × List String)) (v : Nat) : List String :=
  match inh.find? (fun p => p.1 == v) with
  | some p => p.2
  | none => []

/-- Assignment `saved_variants_to_json[v]['inheritance'] = val` (the
variant is always a key of the dict when the code runs this). -/
def setInh (inh : List (Nat × List String)) (v : Nat) (val : List String) :
    List (Nat × List String) :=
  inh.map (fun p => if p.1 == v then (p.1, val) else p)

/-- The loop `for variant in variants: ...['inheritance'] = {"AR-comphet"}`. -/
def setAllComphet (inh : List (Nat × List String)) (vs : List Nat) :
    List (Nat × List String) :=
  vs.foldl (fun i v => setInh i v ["AR-comphet"]) inh

/-- `defaultdict(set)` update: `mapping[g].add(v)`. -/
def addToGroup (groups : List (String × List Nat)) (g : String) (v : Nat) :
    List (String × List Nat) :=
  match groups.find? (fun p => p.1 == g) with
  | some _ =>
    groups.map (fun p =>
      if p.1 == g then (p.1, if p.2.contains v then p.2 else p.2 ++ [v]) else p)
  | none => groups ++ [(g, [v])]

/-- `gene_id in main_gene_ids` where `main_gene_ids` is the set of main
transcript gene ids of the contributing variants. -/
def hasMainGene (mainGene : Nat → String) (geneId : String) (vs : List Nat) : Bool :=
  (vs.map mainGene).contains geneId

/-- One iteration of the first grouping loop over
`potential_compound_het_genes.items()` (staff_api.py 471-492): promote a
gene with more than one candidate variant; if an already promoted group
holds the set-equal variant set, move it to the current gene id when that
id is a main-transcript gene of the contributing variants, else leave the
existing group; otherwise create the group and overwrite each variant's
inheritance set with `{"AR-comphet"}`. -/
def comphetStep (mainGene : Nat → String)
    (st : List (String × List Nat) × List (Nat × List String))
    (entry : String × List Nat) :
    List (String × List Nat) × List (Nat × List String) :=
  if entry.2.length > 1 then
    match st.1.find? (fun p => setEq p.2 entry.2) with
    | some existing =>
      if hasMainGene mainGene entry.1 entry.2 then
        (st.1.filter (fun q => q.1 != existing.1) ++ [(entry.1, existing.2)], st.2)
      else st
    | none =>
      (st.1 ++ [(entry.1, entry.2)], setAllComphet st.2 entry.2)
  else st

/-- The first grouping loop: builds `gene_ids_to_saved_variants` and the
updated per-variant inheritance sets from the candidate map. -/
def groupCompHet (mainGene : Nat → String) (cands : List (String × List Nat))
    (inh0 : List (Nat × List String)) :
    List (String × List Nat) × List (Nat × List String) :=
  cands.foldl (comphetStep mainGene) ([], inh0)

/-- The second loop (staff_api.py 495-500): every variant whose
inheritance set lacks `AR-comphet` is attributed to its main-transcript
gene. -/
def finalGroups (mainGene : Nat → String) (cands : List (String × List Nat))
    (inh0 : List (Nat × List String)) (svl : List Nat) :
    List (String × List Nat) :=
  let st := groupCompHet mainGene cands inh0
  svl.foldl
    (fun gs v =>
      if (lookupInh st.2 v).contains ("AR-comphet") then gs
      else addToGroup gs (mainGene v) v)
    st.1

/-- Whether a variant id is a key of the inheritance map (in the code,
candidate variants are always keys of `saved_variants_to_json`). -/
def keyPresent (inh : List (Nat × List String)) (v : Nat) : Bool :=
  (inh.find? (fun p => p.1 == v)).isSome

/-- Invariant of the first grouping loop, relating the processed prefix
of the candidate map to the accumulated groups and inheritance sets. -/
structure GroupInv (mainGene : Nat → String) (inh0 : List (Nat × List String))
    (processed groups : List (String × List Nat))
    (inh : List (Nat × List String)) : Prop where
  keysNodup : (groups.map Prod.fst).Nodup
  keysSub : ∀ e ∈ groups, e.1 ∈ processed.map Prod.fst
  prov : ∀ e ∈ groups, ∃ c ∈ processed, e.2 = c.2 ∧ c.2.length > 1
  distinct : ∀ e ∈ groups, ∀ f ∈ groups, setEq e.2 f.2 = true → e = f
  complete : ∀ c ∈ processed, c.2.length > 1 → ∃ e ∈ groups, setEq e.2 c.2 = true
  geneTieBreak : ∀ e ∈ groups, ∀ c ∈ processed, setEq c.2 e.2 = true →
    hasMainGene mainGene c.1 e.2 = true → hasMainGene mainGene e.1 e.2 = true
  inhSet : ∀ e ∈ groups, ∀ v ∈ e.2, lookupInh inh v = ["AR-comphet"]
  covered : ∀ v, "AR-comphet" ∈ lookupInh inh v → ∃ e ∈ groups, v ∈ e.2
  frame : ∀ v, lookupInh inh v = lookupInh inh0 v ∨
    lookupInh inh v = ["AR-comphet"]
  keysKept : ∀ w, keyPresent inh w = keyPresent inh0 w

/-! ### Discovery sheet rows (staff_api.py, `_generate_rows`) -/

structure SavedVariantRec where
  vid : Nat
  hasJson : Bool
  transcripts : List String
  mainGeneId : String
  chrom : List Char
  genotypes : List (String × Nat)
deriving Repr, DecidableEq

structure SampleRec where
  guid : String
  affectedStatus : String
deriving Repr, DecidableEq

/-- A discovery-sheet row, reduced to the fields the claims mention: the
family it belongs to and, for the per-gene rows, the gene id; the base
(variant-free) row carries no gene id. -/
structure ReportRow where
  familyGuid : String
  geneId : Option String
deriving Repr, DecidableEq

/-- The collected row-level error strings, as an enumeration of the
formats appearing in `_generate_rows`. -/
inductive ReportError where
  | noProjectData : ReportError
  | noFamilyData : String → ReportError
  | variantAnnotationMissing : Nat → ReportError
  | variantNoGeneIds : Nat → ReportError
deriving Repr, DecidableEq

/-- Affected sample guids among the family's loaded samples
(`sample.individual.affected == "A"`, staff_api.py 415-421). -/
def affectedGuids (samples : List SampleRec) : List String :=
  (samples.filter (fun s => s.affectedStatus == "A")).map (fun s => s.guid)

/-- Unaffected sample guids (`sample.individual.affected == "N"`). -/
def unaffectedGuids (samples : List SampleRec) : List String :=
  (samples.filter (fun s => s.affectedStatus == "N")).map (fun s => s.guid)

/-- Registration of one eligible variant under every gene id of its
transcript map (staff_api.py 460-463). -/
def registerCompHetGenes (cands : List (String × List Nat))
    (affected unaffected : List String) (v : SavedVariantRec) :
    List (String × List Nat) :=
  if isCompHetCandidate affected unaffected v.genotypes then
    v.transcripts.foldl (fun cs geneId => addToGroup cs geneId v.vid) cands
  else cands

/-- `potential_compound_het_genes` accumulated over the kept variants. -/
def buildCandidates (affected unaffected : List String)
    (kept : List SavedVariantRec) : List (String × List Nat) :=
  kept.foldl (fun cs v => registerCompHetGenes cs affected unaffected v) []

def variantUsable (v : SavedVariantRec) : Bool :=
  v.hasJson && !v.transcripts.isEmpty

def variantErrorOf (v : SavedVariantRec) : ReportError :=
  if !v.hasJson then ReportError.variantAnnotationMissing v.vid
  else ReportError.variantNoGeneIds v.vid

/-- First loop over a family's saved variants (staff_api.py 399-413):
keep variants with annotation json and a non-empty transcript map; for
each rejected variant collect one error and append one extra copy of the
family's base row. -/
def collectVariantJson (baseRow : ReportRow) :
    List SavedVariantRec →
      List SavedVariantRec × List ReportRow × List ReportError
  | [] => ([], [], [])
  | v :: rest =>
    let r := collectVariantJson baseRow rest
    if !v.hasJson then
      (r.1, baseRow :: r.2.1, ReportError.variantAnnotationMissing v.vid :: r.2.2)
    else if v.transcripts.isEmpty then
      (r.1, baseRow :: r.2.1, ReportError.variantNoGeneIds v.vid :: r.2.2)
    else
      (v :: r.1, r.2.1, r.2.2)

/-- `saved_variants_to_json[variant]['mainTranscript']['geneId']`. -/
def mainGeneOf (kept : List SavedVariantRec) (vid : Nat) : String :=
  match kept.find? (fun v => v.vid == vid) with
  | some v => v.mainGeneId
  | none => ""

/-- Per-family inheritance classification, compound-het grouping and the
resulting one-row-per-gene output (staff_api.py 415-580, reduced to the
fields the verified claims mention). -/
def familyGeneRows (famGuid : String) (samples : List SampleRec)
    (kept : List SavedVariantRec) : List ReportRow :=
  let aff := affectedGuids samples
  let unaff := unaffectedGuids samples
  let inh0 := kept.map (fun v => (v.vid, inheritanceModels v.chrom aff unaff v.genotypes))
  let cands := buildCandidates aff unaff kept
  let groups := finalGroups (mainGeneOf kept) cands inh0 (kept.map (fun v => v.vid))
  groups.map (fun p => { familyGuid := famGuid, geneId := some p.1 })

/-- Row generation for one family with loaded samples (staff_api.py
326-580): a family with no saved variants contributes its base row;
otherwise the bad-variant base-row copies precede the per-gene rows. -/
def processFamily (famGuid : String) (samples : List SampleRec)
    (savedVariants : List SavedVariantRec) :
    List ReportRow × List ReportError :=
  let baseRow : ReportRow := { familyGuid := famGuid, geneId := none }
  if savedVariants.isEmpty then ([baseRow], [])
  else
    let r := collectVariantJson baseRow savedVariants
    (r.2.1 ++ familyGeneRows famGuid samples r.1, r.2.2)

def lookupAssoc {α : Type} (m : List (String × α)) (k : String) : Option α :=
  (m.find? (fun p => p.1 == k)).map (fun p => p.2)

/-- Loop body over `project.families` (staff_api.py 320-324): a family
without loaded samples contributes one error and is skipped. -/
def familyStep (loadedSamples : List (String × List SampleRec))
    (savedVariants : List (String × List SavedVariantRec))
    (acc : List ReportRow × List ReportError) (famGuid : String) :
    List ReportRow × List ReportError :=
  let samples := (lookupAssoc loadedSamples famGuid).getD []
  if samples.isEmpty then
    (acc.1, acc.2 ++ [ReportError.noFamilyData famGuid])
  else
    let fr := processFamily famGuid samples
      ((lookupAssoc savedVariants famGuid).getD [])
    (acc.1 ++ fr.1, acc.2 ++ fr.2)

/-- `_generate_rows` for one project (staff_api.py 303-585): an empty
loaded-samples map aborts with a project-level error, otherwise families
are processed in order. -/
def generateRows (families : List String)
    (loadedSamples : List (String × List SampleRec))
    (savedVariants : List (String × List SavedVariantRec)) :
    List ReportRow × List ReportError :=
  if loadedSamples.isEmpty then ([], [ReportError.noProjectData])
  else families.foldl (familyStep loadedSamples savedVariants) ([], [])

/-! ### Search result descriptors (variant_search_api.py,
`query_variants_handler`; variant_utils.py,
`reset_cached_search_results`) -/

structure SearchContext where
  search : Nat
  projectFamilies : List (List String)
deriving Repr, DecidableEq

structure ResultsModel where
  searchHash : String
  sort : String
  variantSearch : Nat
  families : List String
  esIndex : Option String
  results : Option Nat
  totalResults : Option Nat
deriving Repr, DecidableEq

/-- Descriptor resolution in `query_variants_handler` (lines 47-77): a
missing hash requires a request body with a non-empty project/family
selection and creates a fresh descriptor; an existing hash with a
different sort gets-or-creates the sibling `(hash, search, sort)`
descriptor, copying the family set on creation; otherwise the stored
descriptor is returned untouched. -/
def resolveSearchResults (store : List ResultsModel) (hash sortKey : String)
    (body : Option SearchContext) (newSearchRef : Nat) :
    Except String (List ResultsModel × ResultsModel) :=
  match store.find? (fun r => r.searchHash == hash) with
  | none =>
    match body with
    | none => Except.error ("Invalid search hash: " ++ hash)
    | some ctx =>
      match ctx.projectFamilies with
      | [] => Except.error ("Invalid search: no projects/ families specified")
      | pf :: _ =>
        let d : ResultsModel :=
          { searchHash := hash, sort := sortKey, variantSearch := newSearchRef,
            families := pf, esIndex := none, results := none,
            totalResults := none }
        Except.ok (store ++ [d], d)
  | some r =>
    if r.sort != sortKey then
      match store.find? (fun m =>
          m.searchHash == hash && m.variantSearch == r.variantSearch &&
          m.sort == sortKey) with
      | some m => Except.ok (store, m)
      | none =>
        let d : ResultsModel :=
          { searchHash := hash, sort := sortKey, variantSearch := r.variantSearch,
            families := r.families, esIndex := none, results := none,
            totalResults := none }
        Except.ok (store ++ [d], d)
    else Except.ok (store, r)

/-- `reset_cached_search_results` (variant_utils.py 61-66): nulls the
`es_index`, `results` and `total_results` fields of every descriptor one
of whose families belongs to the project. -/
def resetCachedSearchResults (store : List ResultsModel)
    (projectOfFamily : String → String) (project : String) :
    List ResultsModel :=
  store.map (fun r =>
    if r.families.any (fun f => projectOfFamily f == project) then
      { r with esIndex := none, results := none, totalResults := none }
    else r)

/-- Modelled from the spec: the external permission service
`checkAccess(project, principal) -> bool/raises` consumed by
`_check_results_permission`; `check_permissions` itself lives in
`seqr.views.utils.permissions_utils`, which is not among the sources.
Raising `PermissionDenied` is modelled as an `Except.error`; the in-source
loop of `_check_results_permission` (variant_search_api.py 322-326) checks
every project backing the descriptor's family set. -/
def checkResultsPermission (hasAccess : String → Bool) :
    List String → Except String Unit
  | [] => Except.ok ()
  | p :: rest =>
    if hasAccess p then checkResultsPermission hasAccess rest
    else Except.error ("PermissionDeniedError")

/-- The page-serving order of `query_variants_handler` (lines 79-89): the
permission check runs before any variants are fetched, so a failure
returns the error and no variants. -/
def queryVariantsPage (hasAccess : String → Bool)
    (projectOfFamily : String → String) (families : List String)
    (fetchedVariants : List Nat) : Except String (List Nat) :=
  match checkResultsPermission hasAccess (families.map projectOfFamily) with
  | Except.error e => Except.error e
  | Except.ok _ => Except.ok fetchedVariants

/-! ### Saved-variant merge (variant_search_api.py, `_get_saved_variants`) -/

structure SearchVariant where
  xpos : Nat
  ref : String
  alt : String
  familyGuids : List String
  searchFields : Nat
deriving Repr, DecidableEq

structure SavedVariantJsonRec where
  variantGuid : String
  xpos : Nat
  ref : String
  alt : String
  familyGuids : List String
  savedFields : Nat
  searchFields : Nat
deriving Repr, DecidableEq

/-- `variants_by_id` lookup: the dict comprehension keyed by
`xpos-ref-alt` keeps the last search variant with a given key. -/
def variantById (variants : List SearchVariant) (xpos : Nat) (ref alt : String) :
    Option SearchVariant :=
  variants.reverse.find? (fun v => v.xpos == xpos && v.ref == ref && v.alt == alt)

/-- `saved_variant.update(variants_by_id[...])`: every search-variant
field overwrites the saved copy, including the family list. -/
def updateWithSearchVariant (saved : SavedVariantJsonRec) (sv : SearchVariant) :
    SavedVariantJsonRec :=
  { saved with
    xpos := sv.xpos, ref := sv.ref, alt := sv.alt,
    familyGuids := sv.familyGuids, searchFields := sv.searchFields }

/-- The per-record merge of `_get_saved_variants` (lines 365-372): after
the dict update, the saved record's own family list is restored. -/
def mergeSavedVariant (variants : List SearchVariant)
    (saved : SavedVariantJsonRec) : Option SavedVariantJsonRec :=
  match variantById variants saved.xpos saved.ref saved.alt with
  | none => none
  | some sv =>
    let familyGuids := saved.familyGuids
    let merged := updateWithSearchVariant saved sv
    some { merged with familyGuids := familyGuids }

/-- `_get_saved_variants`: builds `saved_variants_by_guid`. -/
def getSavedVariantsByGuid (variants : List SearchVariant) :
    List SavedVariantJsonRec → Option (List (String × SavedVariantJsonRec))
  | [] => some []
  | saved :: rest =>
    match mergeSavedVariant variants saved, getSavedVariantsByGuid variants rest with
    | some m, some l => some ((m.variantGuid, m) :: l)
    | _, _ => none

/-! ### Lemmas about the genotype buckets -/

theorem mkBuckets_affectedHomAlt (a u : List String) (g : List (String × Nat)) :
    (mkBuckets a u g).affectedHomAlt =
      (g.filter (fun p => p.2 == 2 && a.contains p.1)).map Prod.fst := by
  induction g with
  | nil => rfl
  | cons hd tl ih =>
    obtain ⟨guid, n⟩ := hd
    simp only [mkBuckets, List.filter_cons]
    repeat' split
    all_goals simp_all [ih]

theorem mkBuckets_affectedHet (a u : List String) (g : List (String × Nat)) :
    (mkBuckets a u g).affectedHet =
      (g.filter (fun p => p.2 == 1 && a.contains p.1)).map Prod.fst := by
  induction g with
  | nil => rfl
  | cons hd tl ih =>
    obtain ⟨guid, n⟩ := hd
    simp only [mkBuckets, List.filter_cons]
    repeat' split
    all_goals simp_all [ih]

theorem mkBuckets_unaffectedHomAlt (a u : List String) (g : List (String × Nat)) :
    (mkBuckets a u g).unaffectedHomAlt =
      (g.filter (fun p => p.2 == 2 && u.contains p.1 && !a.contains p.1)).map Prod.fst := by
  induction g with
  | nil => rfl
  | cons hd tl ih =>
    obtain ⟨guid, n⟩ := hd
    simp only [mkBuckets, List.filter_cons]
    repeat' split
    all_goals simp_all [ih]

theorem mkBuckets_unaffectedHet (a u : List String) (g : List (String × Nat)) :
    (mkBuckets a u g).unaffectedHet =
      (g.filter (fun p => p.2 == 1 && u.contains p.1 && !a.contains p.1)).map Prod.fst := by
  induction g with
  | nil => rfl
  | cons hd tl ih =>
    obtain ⟨guid, n⟩ := hd
    simp only [mkBuckets, List.filter_cons]
    repeat' split
    all_goals simp_all [ih]

theorem affectedHomAlt_isEmpty_iff (a u : List String) (g : List (String × Nat)) :
    (mkBuckets a u g).affectedHomAlt.isEmpty = true ↔
      ∀ p ∈ g, p.2 = 2 → p.1 ∉ a := by
  rw [List.isEmpty_iff, mkBuckets_affectedHomAlt]
  simp only [List.map_eq_nil_iff, List.filter_eq_nil_iff]
  constructor
  · intro h p hp
    have h3 := h p hp
    simpa using h3
  · intro h p hp
    simpa using h p hp

theorem affectedHet_isEmpty_iff (a u : List String) (g : List (String × Nat)) :
    (mkBuckets a u g).affectedHet.isEmpty = true ↔
      ∀ p ∈ g, p.2 = 1 → p.1 ∉ a := by
  rw [List.isEmpty_iff, mkBuckets_affectedHet]
  simp only [List.map_eq_nil_iff, List.filter_eq_nil_iff]
  constructor
  · intro h p hp
    have h3 := h p hp
    simpa using h3
  · intro h p hp
    simpa using h p hp

theorem unaffectedHomAlt_isEmpty_iff (a u : List String) (g : List (String × Nat))
    (hdis : DisjointStatus a u) :
    (mkBuckets a u g).unaffectedHomAlt.isEmpty = true ↔
      ∀ p ∈ g, p.2 = 2 → p.1 ∉ u := by
  rw [List.isEmpty_iff, mkBuckets_unaffectedHomAlt]
  simp only [List.map_eq_nil_iff, List.filter_eq_nil_iff]
  constructor
  · intro h p hp h2 hu
    have h3 := h p hp
    simp only [Bool.and_eq_true, Bool.not_eq_eq_eq_not, Bool.not_true, not_and] at h3
    have h4 : p.1 ∈ a := by simpa [h2, hu] using h3
    exact hdis _ hu h4
  · intro h p hp
    have h3 : p.2 = 2 → p.1 ∉ u := h p hp
    simp only [Bool.and_eq_true, beq_iff_eq, not_and]
    intro h2
    have hu : p.1 ∈ u := by simpa using h2.2
    exact absurd hu (h3 h2.1)

theorem unaffectedHet_isEmpty_iff (a u : List String) (g : List (String × Nat))
    (hdis : DisjointStatus a u) :
    (mkBuckets a u g).unaffectedHet.isEmpty = true ↔
      ∀ p ∈ g, p.2 = 1 → p.1 ∉ u := by
  rw [List.isEmpty_iff, mkBuckets_unaffectedHet]
  simp only [List.map_eq_nil_iff, List.filter_eq_nil_iff]
  constructor
  · intro h p hp h1 hu
    have h3 := h p hp
    simp only [Bool.and_eq_true, Bool.not_eq_eq_eq_not, Bool.not_true, not_and] at h3
    have h4 : p.1 ∈ a := by simpa [h1, hu] using h3
    exact hdis _ hu h4
  · intro h p hp
    have h3 : p.2 = 1 → p.1 ∉ u := h p hp
    simp only [Bool.and_eq_true, beq_iff_eq, not_and]
    intro h1
    have hu : p.1 ∈ u := by simpa using h1.2
    exact absurd hu (h3 h1.1)

theorem affectedHet_not_empty_iff (a u : List String) (g : List (String × Nat)) :
    (!(mkBuckets a u g).affectedHet.isEmpty) = true ↔
      ∃ p ∈ g, p.2 = 1 ∧ p.1 ∈ a := by
  have h := affectedHet_isEmpty_iff a u g
  constructor
  · intro hne
    have h2 : ¬((mkBuckets a u g).affectedHet.isEmpty = true) := by simpa using hne
    rw [h] at h2
    push_neg at h2
    exact h2
  · intro hex
    have h2 : ¬((mkBuckets a u g).affectedHet.isEmpty = true) := by
      rw [h]; push_neg; exact hex
    simpa using h2

theorem affectedHomAlt_not_empty_iff (a u : List String) (g : List (String × Nat)) :
    (!(mkBuckets a u g).affectedHomAlt.isEmpty) = true ↔
      ∃ p ∈ g, p.2 = 2 ∧ p.1 ∈ a := by
  have h := affectedHomAlt_isEmpty_iff a u g
  constructor
  · intro hne
    have h2 : ¬((mkBuckets a u g).affectedHomAlt.isEmpty = true) := by simpa using hne
    rw [h] at h2
    push_neg at h2
    exact h2
  · intro hex
    have h2 : ¬((mkBuckets a u g).affectedHomAlt.isEmpty = true) := by
      rw [h]; push_neg; exact hex
    simpa using h2

theorem unaffectedHet_not_empty_iff (a u : List String) (g : List (String × Nat))
    (hdis : DisjointStatus a u) :
    (!(mkBuckets a u g).unaffectedHet.isEmpty) = true ↔
      ∃ p ∈ g, p.2 = 1 ∧ p.1 ∈ u := by
  have h := unaffectedHet_isEmpty_iff a u g hdis
  constructor
  · intro hne
    have h2 : ¬((mkBuckets a u g).unaffectedHet.isEmpty = true) := by simpa using hne
    rw [h] at h2
    push_neg at h2
    exact h2
  · intro hex
    have h2 : ¬((mkBuckets a u g).unaffectedHet.isEmpty = true) := by
      rw [h]; push_neg; exact hex
    simpa using h2

/-- The `de novo` / `AD` tag is emitted exactly when the second `if` of
the classifier fires: no unaffected hom-alt bucket entry, no unaffected
het bucket entry, and a non-empty affected het bucket (there is no
condition on the affected hom-alt bucket in the source). -/
theorem dominant_mem_iff (chrom : List Char) (a u : List String)
    (g : List (String × Nat)) :
    ("de novo" ∈ inheritanceModels chrom a u g ∨
     "AD" ∈ inheritanceModels chrom a u g) ↔
      ((mkBuckets a u g).unaffectedHomAlt.isEmpty &&
       (mkBuckets a u g).unaffectedHet.isEmpty &&
       !(mkBuckets a u g).affectedHet.isEmpty) = true := by
  by_cases hdom : ((mkBuckets a u g).unaffectedHomAlt.isEmpty &&
      (mkBuckets a u g).unaffectedHet.isEmpty &&
      !(mkBuckets a u g).affectedHet.isEmpty) = true
  · simp only [inheritanceModels, hdom, if_true, eq_self_iff_true, iff_true]
    by_cases hu : (!u.isEmpty) = true
    · simp only [hu, if_true]
      left
      split <;> simp
    · simp only [Bool.not_eq_true] at hu
      simp only [hu]
      right
      split <;> simp
  · constructor
    · intro hmem
      exfalso
      rcases hmem with hmem | hmem <;>
        simp only [inheritanceModels, hdom, if_false, List.append_nil] at hmem <;>
        simp at hmem <;>
        obtain ⟨-, hmem⟩ := hmem <;>
        (split at hmem <;> simp at hmem)
    · intro hc
      exact absurd hc hdom

/-! ### Lemmas about `addToGroup` -/

theorem addToGroup_self (groups : List (String × List Nat)) (g : String) (v : Nat) :
    ∃ e ∈ addToGroup groups g v, e.1 = g ∧ v ∈ e.2 := by
  unfold addToGroup
  cases hfind : groups.find? (fun p => p.1 == g) with
  | none =>
    exact ⟨(g, [v]), by simp, rfl, by simp⟩
  | some p =>
    have hp := List.find?_some hfind
    have hmem := List.mem_of_find?_eq_some hfind
    have himg : (p.1, if p.2.contains v then p.2 else p.2 ++ [v]) ∈
        groups.map (fun q =>
          if q.1 == g then (q.1, if q.2.contains v then q.2 else q.2 ++ [v]) else q) := by
      refine List.mem_map.mpr ⟨p, hmem, ?_⟩
      simp only [hp, if_true]
    refine ⟨_, himg, by simpa using hp, ?_⟩
    by_cases hc : p.2.contains v = true
    · simp only [hc, if_true]
      simpa using hc
    · simp only [hc, if_false]
      simp

theorem addToGroup_mono (groups : List (String × List Nat)) (g : String) (v : Nat)
    (k : String) (w : Nat) (h : ∃ e ∈ groups, e.1 = k ∧ w ∈ e.2) :
    ∃ e ∈ addToGroup groups g v, e.1 = k ∧ w ∈ e.2 := by
  obtain ⟨e, he, hk, hw⟩ := h
  unfold addToGroup
  cases hfind : groups.find? (fun p => p.1 == g) with
  | none => exact ⟨e, by simp [he], hk, hw⟩
  | some p =>
    by_cases heg : (e.1 == g) = true
    · refine ⟨(e.1, if e.2.contains v then e.2 else e.2 ++ [v]),
        List.mem_map.mpr ⟨e, he, by simp [heg]⟩, hk, ?_⟩
      split <;> simp [hw]
    · refine ⟨e, List.mem_map.mpr ⟨e, he, ?_⟩, hk, hw⟩
      simp [heg]

theorem foldl_addToGroup_preserve (vid : Nat) (genes : List String)
    (cands : List (String × List Nat)) (k : String) (w : Nat)
    (h : ∃ e ∈ cands, e.1 = k ∧ w ∈ e.2) :
    ∃ e ∈ genes.foldl (fun cs geneId => addToGroup cs geneId vid) cands,
      e.1 = k ∧ w ∈ e.2 := by
  induction genes generalizing cands with
  | nil => simpa using h
  | cons hd tl ih => exact ih _ (addToGroup_mono _ _ _ _ _ h)

theorem foldl_addToGroup_mem (vid : Nat) (genes : List String)
    (cands : List (String × List Nat)) (geneId : String) (hg : geneId ∈ genes) :
    ∃ e ∈ genes.foldl (fun cs gid => addToGroup cs gid vid) cands,
      e.1 = geneId ∧ vid ∈ e.2 := by
  induction genes generalizing cands with
  | nil => simp at hg
  | cons hd tl ih =>
    rcases List.mem_cons.mp hg with h | h
    · subst h
      exact foldl_addToGroup_preserve vid tl _ _ _ (addToGroup_self cands geneId vid)
    · exact ih (addToGroup cands hd vid) h

/-! ### Claim C1 -/

/-- C1 (counterexample): with one affected heterozygous and one affected
homozygous-alt sample and no unaffected samples, the claimed condition
"no affected sample is homozygous-alt" fails, yet the classifier still
adds `AD`: the `de novo`/`AD` branch of the code has no condition on the
affected hom-alt bucket. -/
theorem C1_counterexample :
    "AD" ∈ inheritanceModels (['1']) (["a1", "a2"]) ([]) ([("a1", 1), ("a2", 2)]) ∧
    (("a2", 2) ∈ ([("a1", 1), ("a2", 2)] : List (String × Nat)) ∧
      ("a2" : String) ∈ (["a1", "a2"] : List String)) := by
  decide

/-- C1 (amended): the classifier adds `de novo` or `AD` exactly when no
unaffected sample is homozygous-alt, no unaffected sample is
heterozygous, and at least one affected sample is heterozygous — with no
condition on affected homozygous-alt samples; it adds `de novo` (and not
`AD`) when the family has unaffected samples and `AD` (and not
`de novo`) when it has none; and under these conditions together with
"no affected sample is homozygous-alt" and zero unaffected samples the
classification is exactly `{AD}`. -/
theorem C1_amended (chrom : List Char) (a u : List String)
    (g : List (String × Nat)) (hdis : DisjointStatus a u) :
    (("de novo" ∈ inheritanceModels chrom a u g ∨
      "AD" ∈ inheritanceModels chrom a u g) ↔
       ((∀ p ∈ g, p.2 = 2 → p.1 ∉ u) ∧ (∀ p ∈ g, p.2 = 1 → p.1 ∉ u) ∧
        (∃ p ∈ g, p.2 = 1 ∧ p.1 ∈ a))) ∧
    (((∀ p ∈ g, p.2 = 2 → p.1 ∉ u) ∧ (∀ p ∈ g, p.2 = 1 → p.1 ∉ u) ∧
        (∃ p ∈ g, p.2 = 1 ∧ p.1 ∈ a)) →
      ((u ≠ [] →
          "de novo" ∈ inheritanceModels chrom a u g ∧
          "AD" ∉ inheritanceModels chrom a u g) ∧
       (u = [] →
          "AD" ∈ inheritanceModels chrom a u g ∧
          "de novo" ∉ inheritanceModels chrom a u g))) ∧
    (u = [] → (∃ p ∈ g, p.2 = 1 ∧ p.1 ∈ a) → (∀ p ∈ g, p.2 = 2 → p.1 ∉ a) →
      inheritanceModels chrom a u g = ["AD"]) := by
  have hcond : ((mkBuckets a u g).unaffectedHomAlt.isEmpty &&
      (mkBuckets a u g).unaffectedHet.isEmpty &&
      !(mkBuckets a u g).affectedHet.isEmpty) = true ↔
      ((∀ p ∈ g, p.2 = 2 → p.1 ∉ u) ∧ (∀ p ∈ g, p.2 = 1 → p.1 ∉ u) ∧
       (∃ p ∈ g, p.2 = 1 ∧ p.1 ∈ a)) := by
    simp only [Bool.and_eq_true]
    rw [unaffectedHomAlt_isEmpty_iff a u g hdis,
        unaffectedHet_isEmpty_iff a u g hdis,
        affectedHet_not_empty_iff a u g]
    tauto
  refine ⟨?_, ?_, ?_⟩
  · rw [dominant_mem_iff chrom a u g, hcond]
  · intro hc
    have hdom := hcond.mpr hc
    constructor
    · intro hu
      have hub : (!u.isEmpty) = true := by
        simpa using hu
      constructor
      · simp [inheritanceModels, hdom, hub]
      · simp only [inheritanceModels, hdom, hub, if_true]
        simp only [List.mem_append]
        push_neg
        constructor
        · split <;> (try split) <;> simp
        · simp
    · intro hu
      subst hu
      constructor
      · simp [inheritanceModels, hdom]
      · simp only [inheritanceModels, hdom, if_true, List.isEmpty_nil,
          Bool.not_true, if_false]
        simp only [List.mem_append]
        push_neg
        constructor
        · split <;> (try split) <;> simp
        · simp
  · intro hu hex hnohom
    subst hu
    have h1 : (mkBuckets a [] g).affectedHomAlt.isEmpty = true :=
      (affectedHomAlt_isEmpty_iff a [] g).mpr hnohom
    have h2 : (mkBuckets a [] g).unaffectedHomAlt = [] := by
      simp [mkBuckets_unaffectedHomAlt]
    have h3 : (mkBuckets a [] g).unaffectedHet = [] := by
      simp [mkBuckets_unaffectedHet]
    have h4 : (!(mkBuckets a [] g).affectedHet.isEmpty) = true :=
      (affectedHet_not_empty_iff a [] g).mpr hex
    have h5 : (mkBuckets a [] g).affectedHomAlt = [] := by
      simpa [List.isEmpty_iff] using h1
    simp [inheritanceModels, h2, h3, h4, h5]

/-- Witness: the amended C1 evaluated at a family with one affected
heterozygous sample, no unaffected samples. -/
theorem C1_amended_witness :
    inheritanceModels (['1']) (["a1"]) ([]) ([("a1", 1)]) = ["AD"] :=
  (C1_amended (['1']) (["a1"]) ([]) ([("a1", 1)])
      (by intro s hs; simp at hs)).2.2 rfl (by decide) (by decide)

/-! ### Claim C8 -/

/-- C8: a variant is registered as a compound-het candidate for every
gene in its transcript map exactly when no unaffected sample is
homozygous-alt, the family has fewer than two unaffected samples or at
least one unaffected heterozygous carrier, at least one affected sample
is heterozygous, and no affected sample is homozygous-alt. -/
theorem C8_compHetCandidate (a u : List String)
    (cands : List (String × List Nat)) (v : SavedVariantRec)
    (hdis : DisjointStatus a u) :
    (isCompHetCandidate a u v.genotypes = true ↔
      ((∀ p ∈ v.genotypes, p.2 = 2 → p.1 ∉ u) ∧
       (u.length < 2 ∨ ∃ p ∈ v.genotypes, p.2 = 1 ∧ p.1 ∈ u) ∧
       (∃ p ∈ v.genotypes, p.2 = 1 ∧ p.1 ∈ a) ∧
       (∀ p ∈ v.genotypes, p.2 = 2 → p.1 ∉ a))) ∧
    (isCompHetCandidate a u v.genotypes = true →
      ∀ geneId ∈ v.transcripts,
        ∃ e ∈ registerCompHetGenes cands a u v, e.1 = geneId ∧ v.vid ∈ e.2) ∧
    (isCompHetCandidate a u v.genotypes = false →
      registerCompHetGenes cands a u v = cands) := by
  refine ⟨?_, ?_, ?_⟩
  · simp only [isCompHetCandidate, Bool.and_eq_true, Bool.or_eq_true,
      decide_eq_true_eq]
    rw [unaffectedHomAlt_isEmpty_iff a u v.genotypes hdis,
        unaffectedHet_not_empty_iff a u v.genotypes hdis,
        affectedHet_not_empty_iff a u v.genotypes,
        affectedHomAlt_isEmpty_iff a u v.genotypes]
    tauto
  · intro hcand geneId hg
    simp only [registerCompHetGenes, hcand, if_true]
    exact foldl_addToGroup_mem v.vid v.transcripts cands geneId hg
  · intro hcand
    simp [registerCompHetGenes, hcand]

/-- Witness: C8 applied to an eligible variant with one affected het
carrier, registering it under its transcript gene. -/
theorem C8_witness :
    ∃ e ∈ registerCompHetGenes ([]) (["a1"]) ([])
        { vid := 7, hasJson := true, transcripts := ["G1"],
          mainGeneId := "G1", chrom := ['1'], genotypes := [("a1", 1)] },
      e.1 = "G1" ∧ 7 ∈ e.2 :=
  (C8_compHetCandidate (["a1"]) ([]) ([])
      { vid := 7, hasJson := true, transcripts := ["G1"],
        mainGeneId := "G1", chrom := ['1'], genotypes := [("a1", 1)] }
      (by intro s hs; simp at hs)).2.1 (by decide) "G1" (by decide)

/-! ### Lemmas about `setEq`, `lookupInh` and `setAllComphet` -/

theorem setEq_iff (a b : List Nat) :
    setEq a b = true ↔ ((∀ x ∈ a, x ∈ b) ∧ (∀ x ∈ b, x ∈ a)) := by
  simp [setEq]

theorem setEq_refl (a : List Nat) : setEq a a = true := by
  rw [setEq_iff]
  exact ⟨fun x hx => hx, fun x hx => hx⟩

theorem setEq_symm {a b : List Nat} (h : setEq a b = true) : setEq b a = true := by
  rw [setEq_iff] at h ⊢
  exact ⟨h.2, h.1⟩

theorem setEq_mem {a b : List Nat} (h : setEq a b = true) (x : Nat) :
    x ∈ a ↔ x ∈ b := by
  rw [setEq_iff] at h
  exact ⟨fun hx => h.1 x hx, fun hx => h.2 x hx⟩

theorem setEq_trans {a b c : List Nat} (h1 : setEq a b = true)
    (h2 : setEq b c = true) : setEq a c = true := by
  rw [setEq_iff] at h1 h2 ⊢
  exact ⟨fun x hx => h2.1 x (h1.1 x hx), fun x hx => h1.2 x (h2.2 x hx)⟩

theorem setEq_length {a b : List Nat} (ha : a.Nodup) (hb : b.Nodup)
    (h : setEq a b = true) : a.length = b.length := by
  have hperm : a.Perm b := by
    apply List.perm_of_nodup_nodup_toFinset_eq ha hb
    ext x
    simp only [List.mem_toFinset]
    exact setEq_mem h x
  exact hperm.length_eq

theorem hasMainGene_iff (m : Nat → String) (k : String) (vs : List Nat) :
    hasMainGene m k vs = true ↔ ∃ v ∈ vs, m v = k := by
  simp [hasMainGene]

theorem hasMainGene_congr {m : Nat → String} {k : String} {vs ws : List Nat}
    (h : setEq vs ws = true) : hasMainGene m k vs = hasMainGene m k ws := by
  rw [Bool.eq_iff_iff, hasMainGene_iff, hasMainGene_iff]
  constructor
  · rintro ⟨v, hv, hk⟩
    exact ⟨v, (setEq_mem h v).mp hv, hk⟩
  · rintro ⟨v, hv, hk⟩
    exact ⟨v, (setEq_mem h v).mpr hv, hk⟩

theorem keyUnique (gs : List (String × List Nat))
    (h : (gs.map Prod.fst).Nodup) (e f : String × List Nat)
    (he : e ∈ gs) (hf : f ∈ gs) (hk : e.1 = f.1) : e = f := by
  induction gs with
  | nil => simp at he
  | cons hd tl ih =>
    simp only [List.map_cons, List.nodup_cons] at h
    rcases List.mem_cons.mp he with he1 | he1 <;>
      rcases List.mem_cons.mp hf with hf1 | hf1
    · rw [he1, hf1]
    · exfalso
      have hmem : f.1 ∈ List.map Prod.fst tl := List.mem_map_of_mem Prod.fst hf1
      rw [← hk, he1] at hmem
      exact h.1 hmem
    · exfalso
      have hmem : e.1 ∈ List.map Prod.fst tl := List.mem_map_of_mem Prod.fst he1
      rw [hk, hf1] at hmem
      exact h.1 hmem
    · exact ih h.2 he1 hf1

theorem keyPresent_of_lookup (inh : List (Nat × List String)) (v : Nat)
    (h : lookupInh inh v ≠ []) : keyPresent inh v = true := by
  unfold lookupInh at h
  unfold keyPresent
  cases hf : inh.find? (fun p => p.1 == v) with
  | none => rw [hf] at h; exact absurd rfl h
  | some p => simp

theorem lookupInh_cons (p : Nat × List String) (tl : List (Nat × List String))
    (w : Nat) :
    lookupInh (p :: tl) w =
      if (p.1 == w) = true then p.2 else lookupInh tl w := by
  by_cases h : (p.1 == w) = true
  · unfold lookupInh
    rw [List.find?_cons_of_pos tl h]
    simp [h]
  · unfold lookupInh
    rw [List.find?_cons_of_neg tl h]
    simp [h]

theorem keyPresent_cons (p : Nat × List String) (tl : List (Nat × List String))
    (w : Nat) :
    keyPresent (p :: tl) w =
      if (p.1 == w) = true then true else keyPresent tl w := by
  by_cases h : (p.1 == w) = true
  · unfold keyPresent
    rw [List.find?_cons_of_pos tl h]
    simp [h]
  · unfold keyPresent
    rw [List.find?_cons_of_neg tl h]
    simp [h]

theorem lookupInh_setInh (inh : List (Nat × List String)) (v : Nat)
    (val : List String) (w : Nat) :
    lookupInh (setInh inh v val) w =
      if w = v ∧ keyPresent inh v = true then val else lookupInh inh w := by
  induction inh with
  | nil => simp [setInh, lookupInh, keyPresent]
  | cons hd tl ih =>
    have hcons : setInh (hd :: tl) v val =
        (if (hd.1 == v) = true then (hd.1, val) else hd) :: setInh tl v val := by
      simp [setInh, List.map_cons]
    by_cases hv : (hd.1 == v) = true <;> by_cases hw : (hd.1 == w) = true
    · have hv1 : hd.1 = v := by simpa using hv
      have hw1 : hd.1 = w := by simpa using hw
      have hwv : w = v := by rw [← hw1, hv1]
      rw [hcons, lookupInh_cons, lookupInh_cons, keyPresent_cons]
      simp [hv, hw, hwv]
    · have hv1 : hd.1 = v := by simpa using hv
      have hw1 : ¬(hd.1 = w) := by simpa using hw
      have hwv : ¬(w = v) := fun hh => hw1 (by rw [hv1, ← hh])
      rw [hcons, lookupInh_cons, lookupInh_cons, keyPresent_cons]
      simp [hv, hw, hwv, ih]
    · have hv1 : ¬(hd.1 = v) := by simpa using hv
      have hw1 : hd.1 = w := by simpa using hw
      have hwv : ¬(w = v) := by rw [← hw1]; exact hv1
      rw [hcons, lookupInh_cons, lookupInh_cons, keyPresent_cons]
      simp [hv, hw, hwv]
    · rw [hcons, lookupInh_cons, lookupInh_cons, keyPresent_cons]
      simp [hv, hw, ih]

theorem keyPresent_setInh (inh : List (Nat × List String)) (v : Nat)
    (val : List String) (w : Nat) :
    keyPresent (setInh inh v val) w = keyPresent inh w := by
  induction inh with
  | nil => rfl
  | cons hd tl ih =>
    have hcons : setInh (hd :: tl) v val =
        (if (hd.1 == v) = true then (hd.1, val) else hd) :: setInh tl v val := by
      simp [setInh, List.map_cons]
    rw [hcons, keyPresent_cons, keyPresent_cons]
    have hkey : (if (hd.1 == v) = true then (hd.1, val) else hd).1 = hd.1 := by
      split <;> rfl
    rw [hkey, ih]

theorem keyPresent_setAllComphet (vs : List Nat)
    (inh : List (Nat × List String)) (w : Nat) :
    keyPresent (setAllComphet inh vs) w = keyPresent inh w := by
  induction vs generalizing inh with
  | nil => rfl
  | cons hd tl ih =>
    show keyPresent (setAllComphet (setInh inh hd ["AR-comphet"]) tl) w = _
    rw [ih, keyPresent_setInh]

theorem lookupInh_setAllComphet_not_mem (vs : List Nat)
    (inh : List (Nat × List String)) (v : Nat) (h : v ∉ vs) :
    lookupInh (setAllComphet inh vs) v = lookupInh inh v := by
  induction vs generalizing inh with
  | nil => rfl
  | cons hd tl ih =>
    show lookupInh (setAllComphet (setInh inh hd ["AR-comphet"]) tl) v = _
    rw [ih _ (fun hm => h (List.mem_cons_of_mem hd hm)), lookupInh_setInh]
    have hv : ¬(v = hd) := fun hh => h (hh ▸ List.mem_cons_self hd tl)
    simp [hv]

theorem lookupInh_setAllComphet_mem (vs : List Nat)
    (inh : List (Nat × List String)) (v : Nat) (hv : v ∈ vs)
    (hp : keyPresent inh v = true) :
    lookupInh (setAllComphet inh vs) v = ["AR-comphet"] := by
  induction vs generalizing inh with
  | nil => simp at hv
  | cons hd tl ih =>
    show lookupInh (setAllComphet (setInh inh hd ["AR-comphet"]) tl) v = _
    by_cases hvtl : v ∈ tl
    · exact ih _ hvtl (by rw [keyPresent_setInh]; exact hp)
    · have hvhd : v = hd := by
        rcases List.mem_cons.mp hv with h1 | h1
        · exact h1
        · exact absurd h1 hvtl
      rw [lookupInh_setAllComphet_not_mem tl _ v hvtl, lookupInh_setInh]
      simp [hvhd, hp, hvhd ▸ hp]

theorem lookupInh_setAllComphet_cases (vs : List Nat)
    (inh : List (Nat × List String)) (v : Nat) :
    lookupInh (setAllComphet inh vs) v = lookupInh inh v ∨
    lookupInh (setAllComphet inh vs) v = ["AR-comphet"] := by
  by_cases hv : v ∈ vs
  · by_cases hp : keyPresent inh v = true
    · exact Or.inr (lookupInh_setAllComphet_mem vs inh v hv hp)
    · -- the key is absent: every update of v is a no-op on the lookup
      left
      induction vs generalizing inh with
      | nil => rfl
      | cons hd tl ih =>
        show lookupInh (setAllComphet (setInh inh hd ["AR-comphet"]) tl) v = _
        by_cases hvtl : v ∈ tl
        · rw [ih _ hvtl (by rw [keyPresent_setInh]; exact hp), lookupInh_setInh]
          have hnp : ¬(v = hd ∧ keyPresent inh hd = true) := by
            rintro ⟨h1, h2⟩
            exact hp (h1 ▸ h2)
          simp [hnp]
        · rw [lookupInh_setAllComphet_not_mem tl _ v hvtl, lookupInh_setInh]
          have hnp : ¬(v = hd ∧ keyPresent inh hd = true) := by
            rintro ⟨h1, h2⟩
            exact hp (h1 ▸ h2)
          simp [hnp]
  · exact Or.inl (lookupInh_setAllComphet_not_mem vs inh v hv)

/-! ### The grouping-loop invariant, case by case -/

theorem step_inv_small (mainGene : Nat → String)
    (inh0 : List (Nat × List String)) (processed : List (String × List Nat))
    (hd : String × List Nat) (groups : List (String × List Nat))
    (inh : List (Nat × List String))
    (hndAll : ∀ c ∈ processed, c.2.Nodup) (hndHd : hd.2.Nodup)
    (hlen : ¬hd.2.length > 1)
    (inv : GroupInv mainGene inh0 processed groups inh) :
    GroupInv mainGene inh0 (processed ++ [hd]) groups inh := by
  refine ⟨inv.keysNodup, ?_, ?_, inv.distinct, ?_, ?_, inv.inhSet,
    inv.covered, inv.frame, inv.keysKept⟩
  · intro e he
    have h := inv.keysSub e he
    rw [List.map_append]
    exact List.mem_append_left _ h
  · intro e he
    obtain ⟨c, hc, h1, h2⟩ := inv.prov e he
    exact ⟨c, List.mem_append_left _ hc, h1, h2⟩
  · intro c hc hclen
    rcases List.mem_append.mp hc with hc1 | hc1
    · exact inv.complete c hc1 hclen
    · have hch : c = hd := by simpa using hc1
      exact absurd (hch ▸ hclen) hlen
  · intro e he c hc hseq hmain
    rcases List.mem_append.mp hc with hc1 | hc1
    · exact inv.geneTieBreak e he c hc1 hseq hmain
    · exfalso
      have hch : c = hd := by simpa using hc1
      obtain ⟨c0, hc0, he2, hlen0⟩ := inv.prov e he
      have hnd0 : e.2.Nodup := by rw [he2]; exact hndAll c0 hc0
      have hlene : c.2.length = e.2.length :=
        setEq_length (by rw [hch]; exact hndHd) hnd0 hseq
      apply hlen
      rw [← hch, hlene, he2]
      exact hlen0

theorem step_inv_create (mainGene : Nat → String)
    (inh0 : List (Nat × List String)) (processed : List (String × List Nat))
    (hd : String × List Nat) (groups : List (String × List Nat))
    (inh : List (Nat × List String))
    (hfresh : hd.1 ∉ List.map Prod.fst processed)
    (hndAll : ∀ c ∈ processed, c.2.Nodup) (hndHd : hd.2.Nodup)
    (hkeysHd : ∀ v ∈ hd.2, keyPresent inh0 v = true)
    (hlen : hd.2.length > 1)
    (hnone : ∀ p ∈ groups, ¬setEq p.2 hd.2 = true)
    (inv : GroupInv mainGene inh0 processed groups inh) :
    GroupInv mainGene inh0 (processed ++ [hd])
      (groups ++ [(hd.1, hd.2)]) (setAllComphet inh hd.2) := by
  have hkfresh : hd.1 ∉ List.map Prod.fst groups := by
    intro hmem
    obtain ⟨e, he, hek⟩ := List.mem_map.mp hmem
    exact hfresh (hek ▸ inv.keysSub e he)
  refine ⟨?_, ?_, ?_, ?_, ?_, ?_, ?_, ?_, ?_, ?_⟩
  · have hmap : (groups ++ [(hd.1, hd.2)]).map Prod.fst =
        groups.map Prod.fst ++ [hd.1] := by simp
    rw [hmap, List.nodup_append]
    refine ⟨inv.keysNodup, List.nodup_singleton _, ?_⟩
    intro x hx hx2
    simp only [List.mem_singleton] at hx2
    exact hkfresh (hx2 ▸ hx)
  · intro e he
    rcases List.mem_append.mp he with he1 | he1
    · have h := inv.keysSub e he1
      rw [List.map_append]
      exact List.mem_append_left _ h
    · have heq : e = (hd.1, hd.2) := by simpa using he1
      rw [List.map_append, heq]
      apply List.mem_append_right
      simp
  · intro e he
    rcases List.mem_append.mp he with he1 | he1
    · obtain ⟨c, hc, h1, h2⟩ := inv.prov e he1
      exact ⟨c, List.mem_append_left _ hc, h1, h2⟩
    · have heq : e = (hd.1, hd.2) := by simpa using he1
      exact ⟨hd, List.mem_append_right _ (by simp), by rw [heq], hlen⟩
  · intro e he f hf hseq
    rcases List.mem_append.mp he with he1 | he1 <;>
      rcases List.mem_append.mp hf with hf1 | hf1
    · exact inv.distinct e he1 f hf1 hseq
    · exfalso
      have hfq : f = (hd.1, hd.2) := by simpa using hf1
      apply hnone e he1
      rw [hfq] at hseq
      exact hseq
    · exfalso
      have heq : e = (hd.1, hd.2) := by simpa using he1
      apply hnone f hf1
      apply setEq_symm
      rw [heq] at hseq
      exact hseq
    · have heq : e = (hd.1, hd.2) := by simpa using he1
      have hfq : f = (hd.1, hd.2) := by simpa using hf1
      rw [heq, hfq]
  · intro c hc hclen
    rcases List.mem_append.mp hc with hc1 | hc1
    · obtain ⟨e, he, hse⟩ := inv.complete c hc1 hclen
      exact ⟨e, List.mem_append_left _ he, hse⟩
    · have hch : c = hd := by simpa using hc1
      refine ⟨(hd.1, hd.2), List.mem_append_right _ (by simp), ?_⟩
      rw [hch]
      exact setEq_refl hd.2
  · intro e he c hc hseq hmain
    rcases List.mem_append.mp he with he1 | he1
    · rcases List.mem_append.mp hc with hc1 | hc1
      · exact inv.geneTieBreak e he1 c hc1 hseq hmain
      · exfalso
        have hch : c = hd := by simpa using hc1
        apply hnone e he1
        apply setEq_symm
        rw [hch] at hseq
        exact hseq
    · have heq : e = (hd.1, hd.2) := by simpa using he1
      rcases List.mem_append.mp hc with hc1 | hc1
      · exfalso
        have hseq2 : setEq c.2 hd.2 = true := by rw [heq] at hseq; exact hseq
        have hll := setEq_length (hndAll c hc1) hndHd hseq2
        have hclen : c.2.length > 1 := by rw [hll]; exact hlen
        obtain ⟨e0, he0, hse0⟩ := inv.complete c hc1 hclen
        exact hnone e0 he0 (setEq_trans hse0 hseq2)
      · have hch : c = hd := by simpa using hc1
        rw [heq]
        rw [heq, hch] at hmain
        exact hmain
  · intro e he v hv
    rcases List.mem_append.mp he with he1 | he1
    · have hold := inv.inhSet e he1 v hv
      by_cases hvm : v ∈ hd.2
      · apply lookupInh_setAllComphet_mem _ _ _ hvm
        apply keyPresent_of_lookup
        rw [hold]
        simp
      · rw [lookupInh_setAllComphet_not_mem _ _ _ hvm]
        exact hold
    · have heq : e = (hd.1, hd.2) := by simpa using he1
      have hvm : v ∈ hd.2 := by rw [heq] at hv; exact hv
      apply lookupInh_setAllComphet_mem _ _ _ hvm
      rw [inv.keysKept v]
      exact hkeysHd v hvm
  · intro v hAR
    by_cases hvm : v ∈ hd.2
    · exact ⟨(hd.1, hd.2), List.mem_append_right _ (by simp), hvm⟩
    · rw [lookupInh_setAllComphet_not_mem _ _ _ hvm] at hAR
      obtain ⟨e, he, hv⟩ := inv.covered v hAR
      exact ⟨e, List.mem_append_left _ he, hv⟩
  · intro v
    rcases lookupInh_setAllComphet_cases hd.2 inh v with h | h
    · rw [h]
      exact inv.frame v
    · exact Or.inr h
  · intro w
    rw [keyPresent_setAllComphet]
    exact inv.keysKept w

theorem step_inv_collide (mainGene : Nat → String)
    (inh0 : List (Nat × List String)) (processed : List (String × List Nat))
    (hd : String × List Nat) (groups : List (String × List Nat))
    (inh : List (Nat × List String)) (existing : String × List Nat)
    (hfresh : hd.1 ∉ List.map Prod.fst processed)
    (hexmem : existing ∈ groups)
    (hexeq : setEq existing.2 hd.2 = true)
    (hmg : hasMainGene mainGene hd.1 hd.2 = true)
    (inv : GroupInv mainGene inh0 processed groups inh) :
    GroupInv mainGene inh0 (processed ++ [hd])
      (groups.filter (fun q => q.1 != existing.1) ++ [(hd.1, existing.2)])
      inh := by
  have hkfresh : hd.1 ∉ List.map Prod.fst groups := by
    intro hmem
    obtain ⟨e, he, hek⟩ := List.mem_map.mp hmem
    exact hfresh (hek ▸ inv.keysSub e he)
  have hkeyuniq : ∀ e ∈ groups, e.1 = existing.1 → e = existing :=
    fun e he hk => keyUnique groups inv.keysNodup e existing he hexmem hk
  have hfilter_mem : ∀ e, e ∈ groups.filter (fun q => q.1 != existing.1) →
      e ∈ groups ∧ ¬(e.1 = existing.1) := by
    intro e he
    have h1 := List.mem_of_mem_filter he
    have h2 := List.of_mem_filter he
    exact ⟨h1, by simpa using h2⟩
  have hmem_filter : ∀ e ∈ groups, e ≠ existing →
      e ∈ groups.filter (fun q => q.1 != existing.1) := by
    intro e he hne
    apply List.mem_filter.mpr
    refine ⟨he, ?_⟩
    simp only [bne_iff_ne, ne_eq]
    intro hk
    exact hne (hkeyuniq e he hk)
  refine ⟨?_, ?_, ?_, ?_, ?_, ?_, ?_, ?_, inv.frame, inv.keysKept⟩
  · have hmap : ((groups.filter (fun q => q.1 != existing.1)) ++
        [(hd.1, existing.2)]).map Prod.fst =
        (groups.filter (fun q => q.1 != existing.1)).map Prod.fst ++ [hd.1] := by
      simp
    rw [hmap, List.nodup_append]
    refine ⟨?_, List.nodup_singleton _, ?_⟩
    · exact ((List.filter_sublist groups).map Prod.fst).nodup inv.keysNodup
    · intro x hx hx2
      simp only [List.mem_singleton] at hx2
      subst hx2
      obtain ⟨e, he, hek⟩ := List.mem_map.mp hx
      exact hkfresh (hek ▸ List.mem_map_of_mem Prod.fst (hfilter_mem e he).1)
  · intro e he
    rcases List.mem_append.mp he with he1 | he1
    · have h := inv.keysSub e (hfilter_mem e he1).1
      rw [List.map_append]
      exact List.mem_append_left _ h
    · have heq : e = (hd.1, existing.2) := by simpa using he1
      rw [List.map_append, heq]
      apply List.mem_append_right
      simp
  · intro e he
    rcases List.mem_append.mp he with he1 | he1
    · obtain ⟨c, hc, h1, h2⟩ := inv.prov e (hfilter_mem e he1).1
      exact ⟨c, List.mem_append_left _ hc, h1, h2⟩
    · have heq : e = (hd.1, existing.2) := by simpa using he1
      obtain ⟨c, hc, h1, h2⟩ := inv.prov existing hexmem
      exact ⟨c, List.mem_append_left _ hc, by rw [heq]; exact h1, h2⟩
  · intro e he f hf hseq
    rcases List.mem_append.mp he with he1 | he1 <;>
      rcases List.mem_append.mp hf with hf1 | hf1
    · exact inv.distinct e (hfilter_mem e he1).1 f (hfilter_mem f hf1).1 hseq
    · exfalso
      have hfq : f = (hd.1, existing.2) := by simpa using hf1
      have hseq2 : setEq e.2 existing.2 = true := by rw [hfq] at hseq; exact hseq
      have hee := inv.distinct e (hfilter_mem e he1).1 existing hexmem hseq2
      exact (hfilter_mem e he1).2 (by rw [hee])
    · exfalso
      have heq : e = (hd.1, existing.2) := by simpa using he1
      have hseq2 : setEq existing.2 f.2 = true := by rw [heq] at hseq; exact hseq
      have hef := inv.distinct existing hexmem f (hfilter_mem f hf1).1 hseq2
      exact (hfilter_mem f hf1).2 (by rw [← hef])
    · have heq : e = (hd.1, existing.2) := by simpa using he1
      have hfq : f = (hd.1, existing.2) := by simpa using hf1
      rw [heq, hfq]
  · intro c hc hclen
    rcases List.mem_append.mp hc with hc1 | hc1
    · obtain ⟨e, he, hse⟩ := inv.complete c hc1 hclen
      by_cases hee : e = existing
      · refine ⟨(hd.1, existing.2), List.mem_append_right _ (by simp), ?_⟩
        rw [hee] at hse
        exact hse
      · exact ⟨e, List.mem_append_left _ (hmem_filter e he hee), hse⟩
    · have hch : c = hd := by simpa using hc1
      refine ⟨(hd.1, existing.2), List.mem_append_right _ (by simp), ?_⟩
      rw [hch]
      exact hexeq
  · intro e he c hc hseq hmain
    rcases List.mem_append.mp he with he1 | he1
    · rcases List.mem_append.mp hc with hc1 | hc1
      · exact inv.geneTieBreak e (hfilter_mem e he1).1 c hc1 hseq hmain
      · exfalso
        have hch : c = hd := by simpa using hc1
        have h1 : setEq hd.2 e.2 = true := by rw [hch] at hseq; exact hseq
        have h2 : setEq existing.2 e.2 = true := setEq_trans hexeq h1
        have hee := inv.distinct existing hexmem e (hfilter_mem e he1).1 h2
        exact (hfilter_mem e he1).2 (by rw [← hee])
    · have heq : e = (hd.1, existing.2) := by simpa using he1
      rw [heq]
      have hcongr : hasMainGene mainGene hd.1 hd.2 =
          hasMainGene mainGene hd.1 existing.2 :=
        hasMainGene_congr (setEq_symm hexeq)
      show hasMainGene mainGene hd.1 existing.2 = true
      rw [← hcongr]
      exact hmg
  · intro e he v hv
    rcases List.mem_append.mp he with he1 | he1
    · exact inv.inhSet e (hfilter_mem e he1).1 v hv
    · have heq : e = (hd.1, existing.2) := by simpa using he1
      have hv2 : v ∈ existing.2 := by rw [heq] at hv; exact hv
      exact inv.inhSet existing hexmem v hv2
  · intro v hAR
    obtain ⟨e, he, hv⟩ := inv.covered v hAR
    by_cases hee : e = existing
    · refine ⟨(hd.1, existing.2), List.mem_append_right _ (by simp), ?_⟩
      rw [hee] at hv
      exact hv
    · exact ⟨e, List.mem_append_left _ (hmem_filter e he hee), hv⟩

theorem step_inv_keep (mainGene : Nat → String)
    (inh0 : List (Nat × List String)) (processed : List (String × List Nat))
    (hd : String × List Nat) (groups : List (String × List Nat))
    (inh : List (Nat × List String)) (existing : String × List Nat)
    (hexmem : existing ∈ groups)
    (hexeq : setEq existing.2 hd.2 = true)
    (hmg : ¬hasMainGene mainGene hd.1 hd.2 = true)
    (inv : GroupInv mainGene inh0 processed groups inh) :
    GroupInv mainGene inh0 (processed ++ [hd]) groups inh := by
  refine ⟨inv.keysNodup, ?_, ?_, inv.distinct, ?_, ?_, inv.inhSet,
    inv.covered, inv.frame, inv.keysKept⟩
  · intro e he
    have h := inv.keysSub e he
    rw [List.map_append]
    exact List.mem_append_left _ h
  · intro e he
    obtain ⟨c, hc, h1, h2⟩ := inv.prov e he
    exact ⟨c, List.mem_append_left _ hc, h1, h2⟩
  · intro c hc hclen
    rcases List.mem_append.mp hc with hc1 | hc1
    · exact inv.complete c hc1 hclen
    · have hch : c = hd := by simpa using hc1
      refine ⟨existing, hexmem, ?_⟩
      rw [hch]
      exact hexeq
  · intro e he c hc hseq hmain
    rcases List.mem_append.mp hc with hc1 | hc1
    · exact inv.geneTieBreak e he c hc1 hseq hmain
    · exfalso
      have hch : c = hd := by simpa using hc1
      have h1 : setEq hd.2 e.2 = true := by rw [hch] at hseq; exact hseq
      have hcongr : hasMainGene mainGene hd.1 hd.2 =
          hasMainGene mainGene hd.1 e.2 := hasMainGene_congr h1
      apply hmg
      rw [hcongr]
      rw [hch] at hmain
      exact hmain

theorem comphetStep_inv (mainGene : Nat → String)
    (inh0 : List (Nat × List String)) (processed : List (String × List Nat))
    (hd : String × List Nat) (groups : List (String × List Nat))
    (inh : List (Nat × List String))
    (hfresh : hd.1 ∉ List.map Prod.fst processed)
    (hndAll : ∀ c ∈ processed, c.2.Nodup) (hndHd : hd.2.Nodup)
    (hkeysHd : ∀ v ∈ hd.2, keyPresent inh0 v = true)
    (inv : GroupInv mainGene inh0 processed groups inh) :
    GroupInv mainGene inh0 (processed ++ [hd])
      (comphetStep mainGene (groups, inh) hd).1
      (comphetStep mainGene (groups, inh) hd).2 := by
  unfold comphetStep
  split
  · rename_i hlen
    split
    · rename_i existing hfind
      have hexmem : existing ∈ groups := List.mem_of_find?_eq_some hfind
      have hexeq : setEq existing.2 hd.2 = true := by
        simpa using List.find?_some hfind
      split
      · rename_i hmg
        exact step_inv_collide mainGene inh0 processed hd groups inh existing
          hfresh hexmem hexeq hmg inv
      · rename_i hmg
        exact step_inv_keep mainGene inh0 processed hd groups inh existing
          hexmem hexeq hmg inv
    · rename_i hfind
      have hnone : ∀ p ∈ groups, ¬setEq p.2 hd.2 = true := by
        intro p hp
        have h := List.find?_eq_none.mp hfind p hp
        simpa using h
      exact step_inv_create mainGene inh0 processed hd groups inh hfresh
        hndAll hndHd hkeysHd hlen hnone inv
  · rename_i hlen
    exact step_inv_small mainGene inh0 processed hd groups inh hndAll hndHd
      hlen inv

theorem groupLoop_inv (mainGene : Nat → String)
    (inh0 : List (Nat × List String)) :
    ∀ (todo processed groups : List (String × List Nat))
      (inh : List (Nat × List String)),
      ((processed ++ todo).map Prod.fst).Nodup →
      (∀ c ∈ processed ++ todo, c.2.Nodup) →
      (∀ c ∈ todo, ∀ v ∈ c.2, keyPresent inh0 v = true) →
      GroupInv mainGene inh0 processed groups inh →
      GroupInv mainGene inh0 (processed ++ todo)
        (todo.foldl (comphetStep mainGene) (groups, inh)).1
        (todo.foldl (comphetStep mainGene) (groups, inh)).2 := by
  intro todo
  induction todo with
  | nil =>
    intro processed groups inh h1 h2 h3 inv
    simpa using inv
  | cons hd tl ih =>
    intro processed groups inh h1 h2 h3 inv
    have hfresh : hd.1 ∉ List.map Prod.fst processed := by
      intro hmem
      rw [List.map_append] at h1
      have hdup := (List.nodup_append.mp h1).2.2
      exact hdup hmem (by simp)
    have step := comphetStep_inv mainGene inh0 processed hd groups inh hfresh
      (fun c hc => h2 c (List.mem_append_left _ hc))
      (h2 hd (by simp)) (h3 hd (by simp)) inv
    have hassoc : processed ++ hd :: tl = (processed ++ [hd]) ++ tl := by simp
    rw [hassoc] at h1 h2 ⊢
    have hres := ih (processed ++ [hd])
      (comphetStep mainGene (groups, inh) hd).1
      (comphetStep mainGene (groups, inh) hd).2
      h1 h2 (fun c hc v hv => h3 c (List.mem_cons_of_mem hd hc) v hv) step
    simpa using hres

/-- The invariant holds for the full first grouping loop. -/
theorem groupCompHet_inv (mainGene : Nat → String)
    (cands : List (String × List Nat)) (inh0 : List (Nat × List String))
    (hkeysN : (cands.map Prod.fst).Nodup)
    (hnd : ∀ c ∈ cands, c.2.Nodup)
    (hpres : ∀ c ∈ cands, ∀ v ∈ c.2, keyPresent inh0 v = true)
    (hno0 : ∀ v, "AR-comphet" ∉ lookupInh inh0 v) :
    GroupInv mainGene inh0 cands
      (groupCompHet mainGene cands inh0).1
      (groupCompHet mainGene cands inh0).2 := by
  have hbase : GroupInv mainGene inh0 [] [] inh0 := by
    refine ⟨List.nodup_nil, ?_, ?_, ?_, ?_, ?_, ?_, ?_, ?_, ?_⟩
    · intro e he; simp at he
    · intro e he; simp at he
    · intro e he; simp at he
    · intro c hc; simp at hc
    · intro e he; simp at he
    · intro e he; simp at he
    · intro v hAR; exact absurd hAR (hno0 v)
    · intro v; exact Or.inl rfl
    · intro w; rfl
  have h := groupLoop_inv mainGene inh0 cands [] [] inh0
    (by simpa using hkeysN) (by simpa using hnd) hpres hbase
  simpa using h

/-! ### The second loop: attribution of non-grouped variants -/

theorem secondStep_preserve (mainGene : Nat → String)
    (inh1 : List (Nat × List String)) (svl : List Nat)
    (gs : List (String × List Nat)) (k : String) (w : Nat)
    (h : ∃ e ∈ gs, e.1 = k ∧ w ∈ e.2) :
    ∃ e ∈ svl.foldl
        (fun acc v =>
          if (lookupInh inh1 v).contains ("AR-comphet") then acc
          else addToGroup acc (mainGene v) v) gs,
      e.1 = k ∧ w ∈ e.2 := by
  induction svl generalizing gs with
  | nil => simpa using h
  | cons hd tl ih =>
    rw [List.foldl_cons]
    by_cases hc : ((lookupInh inh1 hd).contains ("AR-comphet")) = true
    · rw [if_pos hc]
      exact ih gs h
    · rw [if_neg hc]
      exact ih _ (addToGroup_mono gs (mainGene hd) hd k w h)

theorem secondStep_attribute (mainGene : Nat → String)
    (inh1 : List (Nat × List String)) (svl : List Nat)
    (gs : List (String × List Nat)) (v : Nat) (hv : v ∈ svl)
    (hAR : "AR-comphet" ∉ lookupInh inh1 v) :
    ∃ e ∈ svl.foldl
        (fun acc w =>
          if (lookupInh inh1 w).contains ("AR-comphet") then acc
          else addToGroup acc (mainGene w) w) gs,
      e.1 = mainGene v ∧ v ∈ e.2 := by
  induction svl generalizing gs with
  | nil => simp at hv
  | cons hd tl ih =>
    rw [List.foldl_cons]
    rcases List.mem_cons.mp hv with h1 | h1
    · subst h1
      have hcf : ¬((lookupInh inh1 v).contains ("AR-comphet")) = true := by
        simpa using hAR
      rw [if_neg hcf]
      exact secondStep_preserve mainGene inh1 tl _ _ _
        (addToGroup_self gs (mainGene v) v)
    · exact ih _ h1

/-! ### Claim C2 -/

/-- C2: in the compound-het grouping, (i) every confirmed group is the
candidate set of some gene entry with at least 2 candidate variants,
(ii) set-equal variant sets are collapsed into a single group, (iii) every
promoted gene entry is represented by a group with the same variant set,
(iv) whenever a colliding gene id is the main-transcript gene of a
contributing variant, so is the gene id finally kept, (v) every variant of
a confirmed group has its inheritance set replaced by exactly
`{AR-comphet}`, and (vi) every non-grouped variant keeps its original
inheritance set and is attributed to its main-transcript gene. -/
theorem C2_grouping (mainGene : Nat → String) (cands : List (String × List Nat))
    (inh0 : List (Nat × List String)) (svl : List Nat)
    (hkeysN : (cands.map Prod.fst).Nodup)
    (hnd : ∀ c ∈ cands, c.2.Nodup)
    (hpres : ∀ c ∈ cands, ∀ v ∈ c.2, keyPresent inh0 v = true)
    (hno0 : ∀ v, "AR-comphet" ∉ lookupInh inh0 v) :
    (∀ e ∈ (groupCompHet mainGene cands inh0).1,
       ∃ c ∈ cands, e.2 = c.2 ∧ c.2.length > 1) ∧
    (∀ e ∈ (groupCompHet mainGene cands inh0).1,
       ∀ f ∈ (groupCompHet mainGene cands inh0).1,
         setEq e.2 f.2 = true → e = f) ∧
    (∀ c ∈ cands, c.2.length > 1 →
       ∃ e ∈ (groupCompHet mainGene cands inh0).1, setEq e.2 c.2 = true) ∧
    (∀ e ∈ (groupCompHet mainGene cands inh0).1,
       ∀ c ∈ cands, setEq c.2 e.2 = true →
         hasMainGene mainGene c.1 e.2 = true →
         hasMainGene mainGene e.1 e.2 = true) ∧
    (∀ e ∈ (groupCompHet mainGene cands inh0).1, ∀ v ∈ e.2,
       lookupInh (groupCompHet mainGene cands inh0).2 v = ["AR-comphet"]) ∧
    (∀ v ∈ svl,
       "AR-comphet" ∉ lookupInh (groupCompHet mainGene cands inh0).2 v →
       lookupInh (groupCompHet mainGene cands inh0).2 v = lookupInh inh0 v ∧
       ∃ e ∈ finalGroups mainGene cands inh0 svl,
         e.1 = mainGene v ∧ v ∈ e.2) := by
  have inv := groupCompHet_inv mainGene cands inh0 hkeysN hnd hpres hno0
  refine ⟨inv.prov, inv.distinct, inv.complete, inv.geneTieBreak, inv.inhSet, ?_⟩
  intro v hv hAR
  constructor
  · rcases inv.frame v with h | h
    · exact h
    · exfalso
      apply hAR
      rw [h]
      simp
  · unfold finalGroups
    exact secondStep_attribute mainGene (groupCompHet mainGene cands inh0).2 svl
      (groupCompHet mainGene cands inh0).1 v hv hAR

/-- Witness: C2 on one gene with two candidate variants; the grouped
variant's inheritance set becomes exactly `{AR-comphet}`. -/
theorem C2_witness :
    lookupInh (groupCompHet (fun _ => "G1") ([("G1", [1, 2])])
        ([(1, []), (2, [])])).2 1 = ["AR-comphet"] :=
  (C2_grouping (fun _ => "G1") ([("G1", [1, 2])]) ([(1, []), (2, [])]) ([1, 2])
      (by decide) (by decide) (by decide)
      (by
        intro v h
        rw [lookupInh_cons, lookupInh_cons] at h
        split at h
        · simp at h
        · split at h
          · simp at h
          · simp [lookupInh] at h)).2.2.2.2.1
    ("G1", [1, 2]) (by decide) 1 (by decide)

/-! ### Claim C3 -/

/-- C3 (counterexample): gene G2's candidate variant set strictly contains
gene G1's; both genes are promoted to confirmed groups, and variant 1 is
listed under both gene ids in the final mapping — it does not appear in
exactly one gene group. -/
theorem C3_counterexample :
    ∃ e1 ∈ finalGroups (fun _ => "G0") ([("G1", [1, 2]), ("G2", [1, 2, 3])])
        ([(1, []), (2, []), (3, [])]) ([1, 2, 3]),
      ∃ e2 ∈ finalGroups (fun _ => "G0") ([("G1", [1, 2]), ("G2", [1, 2, 3])])
        ([(1, []), (2, []), (3, [])]) ([1, 2, 3]),
      e1.1 ≠ e2.1 ∧ (1 : Nat) ∈ e1.2 ∧ (1 : Nat) ∈ e2.2 := by
  decide

/-- C3 (amended): every variant appears in at least one gene group of the
final mapping — none is dropped — though a variant may be listed under two
gene ids when one gene's candidate set strictly contains another's. -/
theorem C3_amended (mainGene : Nat → String) (cands : List (String × List Nat))
    (inh0 : List (Nat × List String)) (svl : List Nat)
    (hkeysN : (cands.map Prod.fst).Nodup)
    (hnd : ∀ c ∈ cands, c.2.Nodup)
    (hpres : ∀ c ∈ cands, ∀ v ∈ c.2, keyPresent inh0 v = true)
    (hno0 : ∀ v, "AR-comphet" ∉ lookupInh inh0 v) :
    ∀ v ∈ svl, ∃ e ∈ finalGroups mainGene cands inh0 svl, v ∈ e.2 := by
  intro v hv
  have inv := groupCompHet_inv mainGene cands inh0 hkeysN hnd hpres hno0
  unfold finalGroups
  by_cases hAR : "AR-comphet" ∈ lookupInh (groupCompHet mainGene cands inh0).2 v
  · obtain ⟨e, he, hvmem⟩ := inv.covered v hAR
    obtain ⟨g, hg, _, hw⟩ := secondStep_preserve mainGene
      (groupCompHet mainGene cands inh0).2 svl
      (groupCompHet mainGene cands inh0).1 e.1 v ⟨e, he, rfl, hvmem⟩
    exact ⟨g, hg, hw⟩
  · obtain ⟨g, hg, _, hw⟩ := secondStep_attribute mainGene
      (groupCompHet mainGene cands inh0).2 svl
      (groupCompHet mainGene cands inh0).1 v hv hAR
    exact ⟨g, hg, hw⟩

/-- Witness: the amended C3 at a two-variant compound het. -/
theorem C3_amended_witness :
    ∃ e ∈ finalGroups (fun _ => "G1") ([("G1", [1, 2])])
        ([(1, []), (2, [])]) ([1, 2]),
      (1 : Nat) ∈ e.2 :=
  C3_amended (fun _ => "G1") ([("G1", [1, 2])]) ([(1, []), (2, [])]) ([1, 2])
    (by decide) (by decide) (by decide)
    (by
      intro v h
      rw [lookupInh_cons, lookupInh_cons] at h
      split at h
      · simp at h
      · split at h
        · simp at h
        · simp [lookupInh] at h)
    1 (by decide)

/-! ### Claim C4 -/

theorem find?_append_some {α : Type} (p : α → Bool) (l1 l2 : List α) (a : α)
    (h : l1.find? p = some a) : (l1 ++ l2).find? p = some a := by
  induction l1 with
  | nil => simp at h
  | cons hd tl ih =>
    by_cases hp : p hd = true
    · rw [List.find?_cons_of_pos tl hp] at h
      rw [List.cons_append, List.find?_cons_of_pos _ hp]
      exact h
    · rw [List.find?_cons_of_neg tl hp] at h
      rw [List.cons_append, List.find?_cons_of_neg _ hp]
      exact ih h

/-- C4: for a stored descriptor `d` — the one its hash resolves to —
requesting a different sort returns a sibling descriptor with the same
hash and search reference: the existing `(hash, search, sort)` row when
present, else a newly appended one carrying a copy of `d`'s family set
and null result fields; `d` itself is still stored unchanged, and
re-requesting `d`'s own sort afterwards returns `d` and changes
nothing. -/
theorem C4_sortResolution (store : List ResultsModel) (d : ResultsModel)
    (s2 : String) (body : Option SearchContext) (ref : Nat)
    (hfind : store.find? (fun r => r.searchHash == d.searchHash) = some d)
    (hne : ¬s2 = d.sort) :
    ∃ store2 m, resolveSearchResults store d.searchHash s2 body ref =
        Except.ok (store2, m) ∧
      m.searchHash = d.searchHash ∧ m.sort = s2 ∧
      m.variantSearch = d.variantSearch ∧
      ((m ∈ store ∧ store2 = store) ∨
       (store2 = store ++ [m] ∧ m.families = d.families ∧
        m.totalResults = none ∧ m.esIndex = none)) ∧
      d ∈ store2 ∧
      (∀ body2 ref2,
        resolveSearchResults store2 d.searchHash d.sort body2 ref2 =
          Except.ok (store2, d)) := by
  have hdm : d ∈ store := List.mem_of_find?_eq_some hfind
  have hbne : (d.sort != s2) = true := by
    simp only [bne_iff_ne, ne_eq]
    exact fun h => hne h.symm
  have hre : ∀ (store2 : List ResultsModel),
      store2.find? (fun r => r.searchHash == d.searchHash) = some d →
      ∀ body2 ref2,
        resolveSearchResults store2 d.searchHash d.sort body2 ref2 =
          Except.ok (store2, d) := by
    intro store2 hfind2 body2 ref2
    unfold resolveSearchResults
    simp only [hfind2]
    simp
  cases hfind2 : store.find? (fun m =>
      m.searchHash == d.searchHash && m.variantSearch == d.variantSearch &&
      m.sort == s2) with
  | some m =>
    have hp := List.find?_some hfind2
    simp only [Bool.and_eq_true, beq_iff_eq] at hp
    refine ⟨store, m, ?_, hp.1.1, hp.2, hp.1.2, Or.inl
      ⟨List.mem_of_find?_eq_some hfind2, rfl⟩, hdm, hre store hfind⟩
    unfold resolveSearchResults
    simp only [hfind]
    rw [if_pos hbne]
    simp only [hfind2]
  | none =>
    refine ⟨store ++ [{
        searchHash := d.searchHash, sort := s2,
        variantSearch := d.variantSearch, families := d.families,
        esIndex := none, results := none, totalResults := none }], {
        searchHash := d.searchHash, sort := s2,
        variantSearch := d.variantSearch, families := d.families,
        esIndex := none, results := none, totalResults := none },
      ?_, rfl, rfl, rfl, Or.inr ⟨rfl, rfl, rfl, rfl⟩,
      List.mem_append_left _ hdm, ?_⟩
    · unfold resolveSearchResults
      simp only [hfind]
      rw [if_pos hbne]
      simp only [hfind2]
    · exact hre _ (find?_append_some _ store _ d hfind)

/-- A concrete stored descriptor used by the cache witnesses. -/
def demoDescriptor : ResultsModel :=
  { searchHash := "h1", sort := "xpos", variantSearch := 5,
    families := ["F1"], esIndex := none, results := none,
    totalResults := none }

/-- Witness: C4 at a one-descriptor store and a new sort. -/
theorem C4_witness :
    ∃ store2 m,
      resolveSearchResults [demoDescriptor] demoDescriptor.searchHash "gene"
          none 6 = Except.ok (store2, m) ∧
      m.searchHash = demoDescriptor.searchHash ∧ m.sort = "gene" ∧
      m.variantSearch = demoDescriptor.variantSearch ∧
      ((m ∈ [demoDescriptor] ∧ store2 = [demoDescriptor]) ∨
       (store2 = [demoDescriptor] ++ [m] ∧
        m.families = demoDescriptor.families ∧
        m.totalResults = none ∧ m.esIndex = none)) ∧
      demoDescriptor ∈ store2 ∧
      (∀ body2 ref2,
        resolveSearchResults store2 demoDescriptor.searchHash
            demoDescriptor.sort body2 ref2 =
          Except.ok (store2, demoDescriptor)) :=
  C4_sortResolution [demoDescriptor] demoDescriptor "gene" none 6
    (by decide) (by decide)

/-! ### Claim C7 -/

/-- A stored descriptor whose first page has been fetched (non-null
total-result count and index reference). -/
def demoFetchedDescriptor : ResultsModel :=
  { searchHash := "h2", sort := "xpos", variantSearch := 7,
    families := ["F2"], esIndex := some "idx", results := some 3,
    totalResults := some 500 }

/-- C7 (counterexample): `reset_cached_search_results` clears the
total-result count and index reference of a descriptor whose first page
had been fetched — those fields are not immutable. -/
theorem C7_counterexample :
    demoFetchedDescriptor.totalResults = some 500 ∧
    demoFetchedDescriptor.esIndex = some "idx" ∧
    resetCachedSearchResults [demoFetchedDescriptor] (fun _ => "P1") "P1" =
      [{ searchHash := "h2", sort := "xpos", variantSearch := 7,
         families := ["F2"], esIndex := none, results := none,
         totalResults := none }] := by
  refine ⟨rfl, rfl, rfl⟩

/-- C7 (amended): search resolution never deletes or modifies a stored
descriptor — it can only append a new one — and
`reset_cached_search_results`, the one operation that does touch stored
descriptors, deletes none of them and only clears the result fields
(`total_results`, `results`, `es_index`) of project-matching descriptors,
leaving hash, sort, search reference and family set intact. -/
theorem C7_amended :
    (∀ (store store2 : List ResultsModel) (hash sortKey : String)
        (body : Option SearchContext) (ref : Nat) (m : ResultsModel),
        resolveSearchResults store hash sortKey body ref =
          Except.ok (store2, m) →
        ∃ tail, store2 = store ++ tail) ∧
    (∀ (store : List ResultsModel) (pf : String → String) (project : String),
        (resetCachedSearchResults store pf project).length = store.length ∧
        ∀ r ∈ store,
          ∃ r2 ∈ resetCachedSearchResults store pf project,
            r2.searchHash = r.searchHash ∧ r2.sort = r.sort ∧
            r2.variantSearch = r.variantSearch ∧ r2.families = r.families ∧
            (r2 = r ∨ (r2.totalResults = none ∧ r2.esIndex = none ∧
              r2.results = none))) := by
  constructor
  · intro store store2 hash sortKey body ref m h
    unfold resolveSearchResults at h
    split at h
    · split at h
      · simp at h
      · split at h
        · simp at h
        · simp only [Except.ok.injEq, Prod.mk.injEq] at h
          exact ⟨_, h.1.symm⟩
    · split at h
      · split at h
        · simp only [Except.ok.injEq, Prod.mk.injEq] at h
          refine ⟨[], ?_⟩
          rw [← h.1]
          simp
        · simp only [Except.ok.injEq, Prod.mk.injEq] at h
          exact ⟨_, h.1.symm⟩
      · simp only [Except.ok.injEq, Prod.mk.injEq] at h
        refine ⟨[], ?_⟩
        rw [← h.1]
        simp
  · intro store pf project
    constructor
    · simp [resetCachedSearchResults]
    · intro r hr
      by_cases hb : (r.families.any (fun f => pf f == project)) = true
      · refine ⟨{ r with esIndex := none, results := none, totalResults := none },
          List.mem_map.mpr ⟨r, hr, by simp [hb]⟩, rfl, rfl, rfl, rfl,
          Or.inr ⟨rfl, rfl, rfl⟩⟩
      · exact ⟨r, List.mem_map.mpr ⟨r, hr, by simp [hb]⟩, rfl, rfl, rfl, rfl,
          Or.inl rfl⟩

/-- Witness: C7 at a concrete resolution that appends a sibling
descriptor. -/
theorem C7_witness :
    ∃ tail,
      [demoDescriptor] ++ [{
        searchHash := "h1", sort := "gene", variantSearch := 5,
        families := ["F1"], esIndex := none, results := none,
        totalResults := none }] = [demoDescriptor] ++ tail :=
  C7_amended.1 [demoDescriptor]
    ([demoDescriptor] ++ [{
      searchHash := "h1", sort := "gene", variantSearch := 5,
      families := ["F1"], esIndex := none, results := none,
      totalResults := none }]) "h1" "gene" none 6
    { searchHash := "h1", sort := "gene", variantSearch := 5,
      families := ["F1"], esIndex := none, results := none,
      totalResults := none } (by rfl)

/-! ### Claim C5 -/

theorem checkResultsPermission_fails (hasAccess : String → Bool)
    (ps : List String) (p : String) (hp : p ∈ ps)
    (hfail : hasAccess p = false) :
    checkResultsPermission hasAccess ps =
      Except.error ("PermissionDeniedError") := by
  induction ps with
  | nil => simp at hp
  | cons hd tl ih =>
    unfold checkResultsPermission
    by_cases hh : hasAccess hd = true
    · rw [if_pos hh]
      rcases List.mem_cons.mp hp with h1 | h1
      · exfalso
        rw [h1] at hfail
        rw [hfail] at hh
        exact absurd hh (by simp)
      · exact ih h1
    · rw [if_neg hh]

/-- C5: when the requesting principal fails the access check for the
project of any family backing the search, the whole request fails with
`PermissionDeniedError` and no variants are returned, including the
already-fetched ones from accessible projects. -/
theorem C5_permission (hasAccess : String → Bool)
    (projectOfFamily : String → String) (families : List String)
    (fetched : List Nat) (f : String) (hf : f ∈ families)
    (hfail : hasAccess (projectOfFamily f) = false) :
    queryVariantsPage hasAccess projectOfFamily families fetched =
      Except.error ("PermissionDeniedError") := by
  unfold queryVariantsPage
  rw [checkResultsPermission_fails hasAccess (families.map projectOfFamily)
    (projectOfFamily f) (List.mem_map_of_mem projectOfFamily hf) hfail]

/-- Witness: a two-family search spanning an accessible and an
inaccessible project fails entirely. -/
theorem C5_witness :
    queryVariantsPage (fun p => p == "P1")
      (fun f => if f == "F1" then "P1" else "P2")
      (["F1", "F2"]) ([1, 2, 3]) = Except.error ("PermissionDeniedError") :=
  C5_permission (fun p => p == "P1")
    (fun f => if f == "F1" then "P1" else "P2")
    (["F1", "F2"]) ([1, 2, 3]) "F2" (by decide) (by decide)

/-! ### Claim C6 -/

theorem mergeSavedVariant_spec (variants : List SearchVariant)
    (saved : SavedVariantJsonRec) (sv : SearchVariant)
    (hfind : variantById variants saved.xpos saved.ref saved.alt = some sv) :
    mergeSavedVariant variants saved = some {
      variantGuid := saved.variantGuid, xpos := sv.xpos, ref := sv.ref,
      alt := sv.alt, familyGuids := saved.familyGuids,
      savedFields := saved.savedFields, searchFields := sv.searchFields } := by
  unfold mergeSavedVariant
  rw [hfind]
  rfl

/-- C6: when a search result matches a persisted saved variant on
(xpos, ref, alt), the merged record takes the search fields from the
freshly fetched variant, but its family list is exactly the saved
variant's stored family list, not the search result's. -/
theorem C6_merge (variants : List SearchVariant)
    (savedJson : List SavedVariantJsonRec) (saved : SavedVariantJsonRec)
    (sv : SearchVariant) (out : List (String × SavedVariantJsonRec))
    (hmem : saved ∈ savedJson)
    (hfind : variantById variants saved.xpos saved.ref saved.alt = some sv)
    (hout : getSavedVariantsByGuid variants savedJson = some out) :
    ∃ m, (saved.variantGuid, m) ∈ out ∧
      m.variantGuid = saved.variantGuid ∧
      m.searchFields = sv.searchFields ∧ m.xpos = sv.xpos ∧
      m.ref = sv.ref ∧ m.alt = sv.alt ∧
      m.savedFields = saved.savedFields ∧
      m.familyGuids = saved.familyGuids := by
  induction savedJson generalizing out with
  | nil => simp at hmem
  | cons hd tl ih =>
    unfold getSavedVariantsByGuid at hout
    rcases List.mem_cons.mp hmem with h1 | h1
    · rw [← h1] at hout
      rw [mergeSavedVariant_spec variants saved sv hfind] at hout
      cases hrec : getSavedVariantsByGuid variants tl with
      | none =>
        rw [hrec] at hout
        simp at hout
      | some l =>
        rw [hrec] at hout
        simp only [Option.some.injEq] at hout
        refine ⟨{
          variantGuid := saved.variantGuid, xpos := sv.xpos, ref := sv.ref,
          alt := sv.alt, familyGuids := saved.familyGuids,
          savedFields := saved.savedFields, searchFields := sv.searchFields },
          ?_, rfl, rfl, rfl, rfl, rfl, rfl, rfl⟩
        rw [← hout]
        exact List.mem_cons_self _ _
    · cases hm : mergeSavedVariant variants hd with
      | none =>
        rw [hm] at hout
        simp at hout
      | some m0 =>
        rw [hm] at hout
        cases hrec : getSavedVariantsByGuid variants tl with
        | none =>
          rw [hrec] at hout
          simp at hout
        | some l =>
          rw [hrec] at hout
          simp only [Option.some.injEq] at hout
          obtain ⟨m, hml, hprops⟩ := ih l h1 hrec
          refine ⟨m, ?_, hprops⟩
          rw [← hout]
          exact List.mem_cons_of_mem _ hml

/-- Witness: C6 at a one-variant search touching two families, merged
with a saved variant recorded for a single family. -/
theorem C6_witness :
    ∃ m, (("SV1", m) ∈
        [(("SV1" : String), ({
          variantGuid := "SV1", xpos := 100,
          ref := "A", alt := "T", familyGuids := ["F1"],
          savedFields := 9, searchFields := 42 } : SavedVariantJsonRec))]) ∧
      m.variantGuid = "SV1" ∧
      m.searchFields = 42 ∧ m.xpos = 100 ∧
      m.ref = "A" ∧ m.alt = "T" ∧
      m.savedFields = 9 ∧
      m.familyGuids = ["F1"] := by
  have h := C6_merge
    ([{
      xpos := 100, ref := "A", alt := "T", familyGuids := ["F1", "F2"],
      searchFields := 42 }])
    ([{
      variantGuid := "SV1", xpos := 100, ref := "A", alt := "T",
      familyGuids := ["F1"], savedFields := 9, searchFields := 7 }])
    ({
      variantGuid := "SV1", xpos := 100, ref := "A", alt := "T",
      familyGuids := ["F1"], savedFields := 9, searchFields := 7 })
    ({
      xpos := 100, ref := "A", alt := "T", familyGuids := ["F1", "F2"],
      searchFields := 42 })
    ([("SV1", {
      variantGuid := "SV1", xpos := 100, ref := "A", alt := "T",
      familyGuids := ["F1"], savedFields := 9, searchFields := 42 })])
    (by decide) (by rfl) (by rfl)
  exact h

/-! ### Claims C9 and C10 -/

theorem collectVariantJson_eq (baseRow : ReportRow)
    (l : List SavedVariantRec) :
    collectVariantJson baseRow l =
      (l.filter variantUsable,
       (l.filter (fun v => !variantUsable v)).map (fun _ => baseRow),
       (l.filter (fun v => !variantUsable v)).map variantErrorOf) := by
  induction l with
  | nil => rfl
  | cons v rest ih =>
    unfold collectVariantJson
    rw [ih]
    by_cases h1 : v.hasJson = true
    · by_cases h2 : v.transcripts.isEmpty = true
      · simp [variantUsable, variantErrorOf, h1, h2, List.filter_cons]
      · simp [variantUsable, variantErrorOf, h1, h2, List.filter_cons]
    · simp [variantUsable, variantErrorOf, h1, List.filter_cons]

/-- C10: for a family with saved variants, each variant whose annotation
json is absent or whose derived transcript map is empty yields one
collected error and one extra copy of the family's base row, and only the
remaining (usable) variants feed classification and gene grouping: the
family's output is the bad-variant base-row copies followed by the
per-gene rows computed from the usable variants. -/
theorem C10_badVariants (famGuid : String) (samples : List SampleRec)
    (savedVariants : List SavedVariantRec) (hne : savedVariants ≠ []) :
    processFamily famGuid samples savedVariants =
      ((savedVariants.filter (fun v => !variantUsable v)).map
          (fun _ => { familyGuid := famGuid, geneId := none }) ++
        familyGeneRows famGuid samples (savedVariants.filter variantUsable),
       (savedVariants.filter (fun v => !variantUsable v)).map variantErrorOf) := by
  unfold processFamily
  have hb : savedVariants.isEmpty = false := by
    cases savedVariants
    · exact absurd rfl hne
    · rfl
  rw [hb]
  simp only [Bool.false_eq_true, if_false]
  rw [collectVariantJson_eq]

/-- Witness: C10 at a family with one unusable and one usable saved
variant. -/
theorem C10_witness :
    processFamily "FAM1" ([{ guid := "a1", affectedStatus := "A" }])
      ([{
        vid := 1, hasJson := false, transcripts := ["G1"],
        mainGeneId := "G1", chrom := ['1'], genotypes := [("a1", 1)] }, {
        vid := 2, hasJson := true, transcripts := ["G2"],
        mainGeneId := "G2", chrom := ['1'], genotypes := [("a1", 2)] }]) =
      ([{ familyGuid := "FAM1", geneId := none },
        { familyGuid := "FAM1", geneId := some "G2" }],
       [ReportError.variantAnnotationMissing 1]) := by
  rw [C10_badVariants "FAM1" ([{ guid := "a1", affectedStatus := "A" }])
    ([{
      vid := 1, hasJson := false, transcripts := ["G1"],
      mainGeneId := "G1", chrom := ['1'], genotypes := [("a1", 1)] }, {
      vid := 2, hasJson := true, transcripts := ["G2"],
      mainGeneId := "G2", chrom := ['1'], genotypes := [("a1", 2)] }])
    (by decide)]
  decide

theorem familyStep_acc (ls : List (String × List SampleRec))
    (sv : List (String × List SavedVariantRec)) (fams : List String) :
    ∀ (acc : List ReportRow × List ReportError),
      fams.foldl (familyStep ls sv) acc =
        (acc.1 ++ (fams.foldl (familyStep ls sv) ([], [])).1,
         acc.2 ++ (fams.foldl (familyStep ls sv) ([], [])).2) := by
  induction fams with
  | nil => intro acc; simp
  | cons hd tl ih =>
    intro acc
    rw [List.foldl_cons, List.foldl_cons, ih (familyStep ls sv acc hd),
      ih (familyStep ls sv ([], []) hd)]
    unfold familyStep
    by_cases hs : ((lookupAssoc ls hd).getD []).isEmpty = true
    · rw [if_pos hs, if_pos hs]
      simp
    · rw [if_neg hs, if_neg hs]
      simp

/-- C9: in a project with loaded samples, a family with zero loaded
samples produces no rows and exactly one collected error, and the rows
and errors of the preceding and following families are exactly what they
would be without it. -/
theorem C9_missingSamples (pre post : List String) (fam : String)
    (ls : List (String × List SampleRec))
    (sv : List (String × List SavedVariantRec))
    (hproj : ls.isEmpty = false)
    (hf : ((lookupAssoc ls fam).getD []).isEmpty = true) :
    (generateRows (pre ++ fam :: post) ls sv).1 =
      (generateRows (pre ++ post) ls sv).1 ∧
    (generateRows (pre ++ fam :: post) ls sv).2 =
      (generateRows pre ls sv).2 ++ [ReportError.noFamilyData fam] ++
        (generateRows post ls sv).2 := by
  unfold generateRows
  rw [hproj]
  simp only [Bool.false_eq_true, if_false]
  rw [List.foldl_append, List.foldl_append, List.foldl_cons]
  have hstep : familyStep ls sv (pre.foldl (familyStep ls sv) ([], [])) fam =
      ((pre.foldl (familyStep ls sv) ([], [])).1,
       (pre.foldl (familyStep ls sv) ([], [])).2 ++
         [ReportError.noFamilyData fam]) := by
    unfold familyStep
    rw [if_pos hf]
  have hacc1 := familyStep_acc ls sv post
    ((pre.foldl (familyStep ls sv) ([], [])).1,
     (pre.foldl (familyStep ls sv) ([], [])).2 ++
       [ReportError.noFamilyData fam])
  have hacc2 := familyStep_acc ls sv post (pre.foldl (familyStep ls sv) ([], []))
  rw [hstep, hacc1, hacc2]
  constructor
  · simp
  · simp

/-- Witness: C9 at a two-family project where the second family has no
loaded samples. -/
theorem C9_witness :
    (generateRows (["F1"] ++ "F2" :: [])
        ([("F1", [{ guid := "a1", affectedStatus := "A" }])]) ([])).1 =
      (generateRows (["F1"] ++ [])
        ([("F1", [{ guid := "a1", affectedStatus := "A" }])]) ([])).1 ∧
    (generateRows (["F1"] ++ "F2" :: [])
        ([("F1", [{ guid := "a1", affectedStatus := "A" }])]) ([])).2 =
      (generateRows (["F1"])
        ([("F1", [{ guid := "a1", affectedStatus := "A" }])]) ([])).2 ++
        [ReportError.noFamilyData "F2"] ++
        (generateRows ([])
          ([("F1", [{ guid := "a1", affectedStatus := "A" }])]) ([])).2 :=
  C9_missingSamples ["F1"] [] "F2"
    ([("F1", [{ guid := "a1", affectedStatus := "A" }])]) ([])
    (by rfl) (by rfl)

end Seqr
